import Mathlib

/-!
Shallow embedding of the UFM-Tooling layout engine (LayoutEngine.h/.cpp,
ShapeElement.h) and proofs about the behaviour of its four layout
strategies, its overlap oracle and its frame properties.

Numeric values are modelled exactly over an arbitrary linear ordered field
with a floor function (instantiated at `ℚ` for the strategies that use only
field arithmetic, and at `ℝ` for the two strategies that call `cos`, `sin`,
`sqrt` and use `M_PI`; the transcendental functions and the constant pi are
passed as parameters, and instantiated with the genuine real functions).
C++ object identity (a `shared_ptr`) is modelled as a natural-number id
indexing a store `Nat → ElemData α`; an element collection is a list of
optional ids (a `std::vector` of possibly-null `shared_ptr`s).  Setters on
shape elements are direct field replacement (ShapeElement.h; the
implementation file is not part of the snapshot, but the header and the
design notes specify plain accessors with no derived invalidation).
-/

set_option linter.unusedSectionVars false
set_option linter.unusedVariables false
set_option maxHeartbeats 1000000
set_option maxRecDepth 8000

namespace UFMTooling

/-- 2D position (ShapeElement.h `Position`). -/
structure Position (α : Type) where
  x : α
  y : α
deriving DecidableEq

/-- 2D size (ShapeElement.h `Size`). -/
structure Size (α : Type) where
  width : α
  height : α
deriving DecidableEq

/-- Canvas dimensions (LayoutEngine.h `CanvasSize`). -/
structure CanvasSize (α : Type) where
  width : α
  height : α
deriving DecidableEq

/-- Element discriminant (ShapeElement.h `ElementType`). -/
inductive ElementType
  | Drawing
  | Relationship
deriving DecidableEq

/-- Layout strategy (LayoutEngine.h `LayoutStrategy`). -/
inductive LayoutStrategy
  | Grid
  | Hierarchical
  | Force
  | Circular
deriving DecidableEq

/-- Layout configuration (LayoutEngine.h `LayoutConfig`). -/
structure LayoutConfig (α : Type) where
  strategy : LayoutStrategy
  padding : α
  marginTop : α
  marginBottom : α
  marginLeft : α
  marginRight : α
  respectConnections : Bool
deriving DecidableEq

/-- Result of a layout operation (LayoutEngine.h `LayoutResult`).
The default constructor yields `success = false`, empty message,
`elementsArranged = 0`, `totalArea = 0`. -/
structure LayoutResult (α : Type) where
  success : Bool
  errorMessage : String
  elementsArranged : Int
  totalArea : α
deriving DecidableEq

/-- The state of one shape object.  A single record covers both variants
(`DrawingElement` and `RelationshipElement` of ShapeElement.h), with
`etype` as the discriminant returned by `getElementType`; the connector
fields are only meaningful on relationships, where they hold the id of the
referenced `DrawingElement` (`none` models a null `shared_ptr`). -/
structure ElemData (α : Type) where
  etype : ElementType
  name : String
  shapeType : String
  color : String
  relType : String
  label : String
  connector1 : Option Nat
  connector2 : Option Nat
  position : Position α
  size : Size α
deriving DecidableEq

/-- The heap of shape objects, indexed by object identity. -/
def Store (α : Type) := Nat → ElemData α

/-- `ShapeElement::setPosition`: direct replacement of the position field. -/
def setPos {α : Type} (s : Store α) (i : Nat) (p : Position α) : Store α :=
  fun j => if j = i then { s j with position := p } else s j

section Engine

variable {α : Type} [LinearOrderedField α] [FloorRing α]

/-- `LayoutEngine::Impl::getDrawingElements`: the ids of the non-null
Drawing-typed members of the collection, in input order. -/
def getDrawingElements (s : Store α) (elements : List (Option Nat)) : List Nat :=
  elements.filterMap (fun e =>
    match e with
    | some i => if (s i).etype = ElementType.Drawing then some i else none
    | none => none)

/-- `LayoutEngine::Impl::getRelationshipElements`: the ids of the non-null
Relationship-typed members of the collection, in input order. -/
def getRelationshipElements (s : Store α) (elements : List (Option Nat)) : List Nat :=
  elements.filterMap (fun e =>
    match e with
    | some i => if (s i).etype = ElementType.Relationship then some i else none
    | none => none)

/-- `LayoutEngine::Impl::checkOverlap`. -/
def checkOverlap (cfg : LayoutConfig α) (s : Store α)
    (elem1 elem2 : Option Nat) : Bool :=
  match elem1, elem2 with
  | none, _ => false
  | _, none => false
  | some i, some j =>
    if (s i).etype ≠ ElementType.Drawing ∨ (s j).etype ≠ ElementType.Drawing then
      false
    else
      let pos1 := (s i).position
      let size1 := (s i).size
      let pos2 := (s j).position
      let size2 := (s j).size
      let padding := cfg.padding
      let overlapX := decide (pos1.x + size1.width + padding > pos2.x) &&
        decide (pos2.x + size2.width + padding > pos1.x)
      let overlapY := decide (pos1.y + size1.height + padding > pos2.y) &&
        decide (pos2.y + size2.height + padding > pos1.y)
      overlapX && overlapY

/-- `LayoutEngine::countOverlaps`: pairwise scan over the collection,
each unordered pair visited once. -/
def countOverlaps (cfg : LayoutConfig α) (s : Store α) :
    List (Option Nat) → Nat
  | [] => 0
  | e :: rest =>
    rest.countP (fun f => checkOverlap cfg s e f) + countOverlaps cfg s rest

/-- C++ `static_cast<int>` applied to a real value: truncation toward zero. -/
def truncToInt (q : α) : ℤ := if 0 ≤ q then ⌊q⌋ else -⌊-q⌋

/-- The `LayoutResult` produced by the shared empty-Drawing-subset early
return: `success` set to true, every other field left at its
default-constructed value. -/
def emptyResult : LayoutResult α := ⟨true, "", 0, 0⟩

/-- One row of the placement loop of `arrangeGrid`: the inner column loop,
sharing the running element index, which stops the writes once every
drawing has been placed. -/
def gridRow (drawings : List Nat) (count : ℕ) (mL mT cw ch : α)
    (colsN : ℕ) (st : Store α × ℕ) (row : ℕ) : Store α × ℕ :=
  (List.range colsN).foldl (fun st (col : ℕ) =>
    if st.2 < count then
      (setPos st.1 (drawings.getD st.2 0)
        ⟨mL + (col : α) * cw, mT + (row : α) * ch⟩, st.2 + 1)
    else st) st

/-- The placement double loop of `arrangeGrid`: rows outermost, columns
innermost. -/
def gridPlace (drawings : List Nat) (count rowsN colsN : ℕ)
    (mL mT cw ch : α) (s : Store α) : Store α × ℕ :=
  (List.range rowsN).foldl (gridRow drawings count mL mT cw ch colsN) (s, 0)

/-- `LayoutEngine::Impl::arrangeGrid`. -/
def arrangeGrid (canvas : CanvasSize α) (cfg : LayoutConfig α) (s : Store α)
    (elements : List (Option Nat)) : Store α × LayoutResult α :=
  let drawings := getDrawingElements s elements
  if drawings = [] then (s, emptyResult) else
  let availableWidth := canvas.width - cfg.marginLeft - cfg.marginRight
  let availableHeight := canvas.height - cfg.marginTop - cfg.marginBottom
  let maxWidth := drawings.foldl (fun m d => max m (s d).size.width) 0
  let maxHeight := drawings.foldl (fun m d => max m (s d).size.height) 0
  let cellWidth := maxWidth + cfg.padding
  let cellHeight := maxHeight + cfg.padding
  let cols : ℤ := max 1 (truncToInt (availableWidth / cellWidth))
  let rows : ℤ := ⌈(drawings.length : α) / ((cols : ℤ) : α)⌉
  let rc : ℤ × ℤ :=
    if ((rows : ℤ) : α) * cellHeight > availableHeight then
      let rows2 : ℤ := max 1 (truncToInt (availableHeight / cellHeight))
      (rows2, ⌈(drawings.length : α) / ((rows2 : ℤ) : α)⌉)
    else (rows, cols)
  let count := drawings.length
  let placed := gridPlace drawings count rc.1.toNat rc.2.toNat
    cfg.marginLeft cfg.marginTop cellWidth cellHeight s
  (placed.1,
   { success := true, errorMessage := "", elementsArranged := (count : ℤ),
     totalArea := availableWidth * availableHeight })

/-- `std::map` keyed by object identity, as an association list with unique
keys; lookup returns the (unique) matching entry. -/
def lmLookup (lm : List (Nat × Nat)) (k : Nat) : Option Nat :=
  (lm.find? (fun e => e.1 == k)).map (fun e => e.2)

/-- `map[k] = v`: replace the entry for `k` if present, insert otherwise. -/
def lmInsert (lm : List (Nat × Nat)) (k v : Nat) : List (Nat × Nat) :=
  if (lm.find? (fun e => e.1 == k)).isSome then
    lm.map (fun e => if e.1 == k then (k, v) else e)
  else lm ++ [(k, v)]

/-- Maximum of the values stored in the level map (0 when empty), as in the
`maxLevel` scan of `arrangeHierarchical`. -/
def lmMax (lm : List (Nat × Nat)) : Nat := lm.foldl (fun m e => max m e.2) 0

/-- The level used when bucketing a drawing: its level-map entry, or 0 when
it has none. -/
def levelOf (lm : List (Nat × Nat)) (d : Nat) : Nat := (lmLookup lm d).getD 0

/-- The `hasParent` scan of `arrangeHierarchical`: some relationship's
`connector2` is exactly this drawing object. -/
def hasParent (s : Store α) (rels : List Nat) (d : Nat) : Bool :=
  rels.any (fun r => (s r).connector2 == some d)

/-- One step of the level-assignment pass of `arrangeHierarchical`: if the
relationship has both endpoints set and its parent (`connector1`) already
has a level, the child (`connector2`) is assigned the parent's level plus
one. -/
def hierStep (s : Store α) (lm : List (Nat × Nat)) (r : Nat) :
    List (Nat × Nat) :=
  match (s r).connector1, (s r).connector2 with
  | some parent, some child =>
    match lmLookup lm parent with
    | some lp => lmInsert lm child (lp + 1)
    | none => lm
  | _, _ => lm

/-- The level-assignment phase of `arrangeHierarchical`: roots (drawings
that are never a `connector2`) start at level 0 — all drawings do if no
root exists — then a single pass over the relationships in input order
assigns `child := parent + 1` whenever the parent already has a level. -/
def hierLevelMap (s : Store α) (drawings relationships : List Nat) :
    List (Nat × Nat) :=
  let roots0 := drawings.filter (fun d => ! hasParent s relationships d)
  let roots := if roots0 = [] then drawings else roots0
  let lm0 : List (Nat × Nat) := roots.foldl (fun lm d => lmInsert lm d 0) []
  relationships.foldl (hierStep s) lm0

/-- One row of the positioning phase of `arrangeHierarchical`: place the
bucket of drawings at this level on its row with evenly spaced slots,
centering each box on its slot horizontally; empty buckets are skipped. -/
def hierRowPlace (drawings : List Nat) (lm : List (Nat × Nat))
    (availableWidth mL mT : α) (st : Store α) (level : ℕ) : Store α :=
  let bucket := drawings.filter (fun d => levelOf lm d == level)
  let count := bucket.length
  if count = 0 then st else
  let horizontalSpacing := availableWidth / ((count : α) + 1)
  let y := mT + (level : α) * 150
  (List.range count).foldl (fun st (i : ℕ) =>
    setPos st (bucket.getD i 0)
      ⟨mL + ((i : α) + 1) * horizontalSpacing -
        (st (bucket.getD i 0)).size.width / 2, y⟩) st

/-- The positioning phase of `arrangeHierarchical`: bucket the drawings by
level (default level 0) and place the rows for levels 0 .. maxLevel. -/
def hierPlace (drawings : List Nat) (lm : List (Nat × Nat))
    (availableWidth mL mT : α) (s : Store α) : Store α :=
  (List.range (lmMax lm + 1)).foldl
    (hierRowPlace drawings lm availableWidth mL mT) s

/-- `LayoutEngine::Impl::arrangeHierarchical`.  The source also builds a
`childMap` alongside the level map; that map is never read afterwards, so
it has no counterpart here. -/
def arrangeHierarchical (canvas : CanvasSize α) (cfg : LayoutConfig α) (s : Store α)
    (elements : List (Option Nat)) : Store α × LayoutResult α :=
  let drawings := getDrawingElements s elements
  let relationships := getRelationshipElements s elements
  if drawings = [] then (s, emptyResult) else
  let lm := hierLevelMap s drawings relationships
  let availableWidth := canvas.width - cfg.marginLeft - cfg.marginRight
  let placed := hierPlace drawings lm availableWidth cfg.marginLeft cfg.marginTop s
  (placed,
   { success := true, errorMessage := "", elementsArranged := (drawings.length : ℤ),
     totalArea := availableWidth * (canvas.height - cfg.marginTop - cfg.marginBottom) })

/-- Pointwise update of the per-index force accumulator (`forces[k] = p`). -/
def updF (F : Nat → Position α) (k : Nat) (p : Position α) : Nat → Position α :=
  fun m => if m = k then p else F m

/-- One round of the force-directed loop of `LayoutEngine::Impl::arrangeForce`:
repulsion over all unordered pairs, attraction along relationships whose
endpoints are both present in the drawing list, then damped application of
the accumulated forces with per-axis clamping. -/
def forceIter (sqrtF : α → α) (canvas : CanvasSize α) (cfg : LayoutConfig α)
    (drawings rels : List Nat) (s : Store α) : Store α :=
  let n := drawings.length
  let forces0 : Nat → Position α := fun _ => ⟨0, 0⟩
  let forces1 := (List.range n).foldl (fun F i =>
    ((List.range n).drop (i + 1)).foldl (fun F j =>
      let pos1 := (s (drawings.getD i 0)).position
      let pos2 := (s (drawings.getD j 0)).position
      let dx := pos1.x - pos2.x
      let dy := pos1.y - pos2.y
      let dist0 := sqrtF (dx * dx + dy * dy)
      let dist := if dist0 < 1 then 1 else dist0
      let force := 5000 / (dist * dist)
      let F1 := updF F i ⟨(F i).x + force * dx / dist, (F i).y + force * dy / dist⟩
      updF F1 j ⟨(F1 j).x - force * dx / dist, (F1 j).y - force * dy / dist⟩) F) forces0
  let forces2 := rels.foldl (fun F r =>
    match (s r).connector1, (s r).connector2 with
    | some conn1, some conn2 =>
      if conn1 ∈ drawings ∧ conn2 ∈ drawings then
        let i := drawings.findIdx (fun x => x == conn1)
        let j := drawings.findIdx (fun x => x == conn2)
        let pos1 := (s conn1).position
        let pos2 := (s conn2).position
        let dx := pos2.x - pos1.x
        let dy := pos2.y - pos1.y
        let dist0 := sqrtF (dx * dx + dy * dy)
        let dist := if dist0 < 1 then 1 else dist0
        let force := 100 * (dist - 200) / dist
        let F1 := updF F i ⟨(F i).x + force * dx / dist, (F i).y + force * dy / dist⟩
        updF F1 j ⟨(F1 j).x - force * dx / dist, (F1 j).y - force * dy / dist⟩
      else F
    | _, _ => F) forces1
  (List.range n).foldl (fun st (i : ℕ) =>
    let d := drawings.getD i 0
    let pos := (st d).position
    let px := pos.x + (forces2 i).x * (8 / 10)
    let py := pos.y + (forces2 i).y * (8 / 10)
    let px2 := max cfg.marginLeft
      (min px (canvas.width - cfg.marginRight - (st d).size.width))
    let py2 := max cfg.marginTop
      (min py (canvas.height - cfg.marginBottom - (st d).size.height))
    setPos st d ⟨px2, py2⟩) s

/-- The deterministic seeding loop of `arrangeForce`: element `i` of `n`
is placed at angle `2 pi i / n` around the canvas center, radius 200. -/
def forceSeed (piV : α) (cosF sinF : α → α) (centerX centerY : α)
    (drawings : List Nat) (s : Store α) : Store α :=
  let spread : α := 200
  let n := drawings.length
  (List.range n).foldl (fun st (i : ℕ) =>
    let angle := (2 * piV * (i : α)) / (n : α)
    setPos st (drawings.getD i 0)
      ⟨centerX + spread * cosF angle, centerY + spread * sinF angle⟩) s

/-- `LayoutEngine::Impl::arrangeForce`: deterministic circular seeding
followed by exactly 50 force iterations. -/
def arrangeForce (piV : α) (cosF sinF sqrtF : α → α) (canvas : CanvasSize α)
    (cfg : LayoutConfig α) (s : Store α) (elements : List (Option Nat)) :
    Store α × LayoutResult α :=
  let drawings := getDrawingElements s elements
  let relationships := getRelationshipElements s elements
  if drawings = [] then (s, emptyResult) else
  let centerX := canvas.width / 2
  let centerY := canvas.height / 2
  let s0 := forceSeed piV cosF sinF centerX centerY drawings s
  let sFinal := (List.range 50).foldl
    (fun st _ => forceIter sqrtF canvas cfg drawings relationships st) s0
  (sFinal,
   { success := true, errorMessage := "", elementsArranged := (drawings.length : ℤ),
     totalArea := canvas.width * canvas.height })

/-- The placement loop of `arrangeCircular`: element `i` of `n` at angle
`2 pi i / n` on the circle, its top-left offset by half its own size so the
box center sits on the circle. -/
def circPlace (piV : α) (cosF sinF : α → α) (centerX centerY radius : α)
    (drawings : List Nat) (s : Store α) : Store α :=
  let n := drawings.length
  (List.range n).foldl (fun st (i : ℕ) =>
    let d := drawings.getD i 0
    let angle := (2 * piV * (i : α)) / (n : α)
    setPos st d
      ⟨centerX + radius * cosF angle - (st d).size.width / 2,
       centerY + radius * sinF angle - (st d).size.height / 2⟩) s

/-- `LayoutEngine::Impl::arrangeCircular`. -/
def arrangeCircular (piV : α) (cosF sinF : α → α) (canvas : CanvasSize α)
    (cfg : LayoutConfig α) (s : Store α) (elements : List (Option Nat)) :
    Store α × LayoutResult α :=
  let drawings := getDrawingElements s elements
  if drawings = [] then (s, emptyResult) else
  let centerX := canvas.width / 2
  let centerY := canvas.height / 2
  let availableWidth := canvas.width - cfg.marginLeft - cfg.marginRight
  let availableHeight := canvas.height - cfg.marginTop - cfg.marginBottom
  let radius := min availableWidth availableHeight / 2 - 100
  let placed := circPlace piV cosF sinF centerX centerY radius drawings s
  (placed,
   { success := true, errorMessage := "", elementsArranged := (drawings.length : ℤ),
     totalArea := piV * radius * radius })

/-- `LayoutEngine::arrangeElements`: dispatch on the configured strategy.
The C++ `switch` has a `default:` arm falling back to Grid; the strategy
enum has exactly four values, so the match is total. -/
def arrangeElements (piV : α) (cosF sinF sqrtF : α → α) (canvas : CanvasSize α)
    (cfg : LayoutConfig α) (s : Store α) (elements : List (Option Nat)) :
    Store α × LayoutResult α :=
  match cfg.strategy with
  | LayoutStrategy.Grid => arrangeGrid canvas cfg s elements
  | LayoutStrategy.Hierarchical => arrangeHierarchical canvas cfg s elements
  | LayoutStrategy.Force => arrangeForce piV cosF sinF sqrtF canvas cfg s elements
  | LayoutStrategy.Circular => arrangeCircular piV cosF sinF canvas cfg s elements

end Engine

/-- The force-directed strategy over the reals, with the genuine `M_PI`,
`cos`, `sin` and `sqrt` of `<cmath>`. -/
noncomputable def arrangeForceR :=
  arrangeForce (α := ℝ) Real.pi Real.cos Real.sin Real.sqrt

/-- The circular strategy over the reals, with the genuine `M_PI`, `cos`
and `sin` of `<cmath>`. -/
noncomputable def arrangeCircularR :=
  arrangeCircular (α := ℝ) Real.pi Real.cos Real.sin

/-- The dispatching entry point over the reals. -/
noncomputable def arrangeElementsR :=
  arrangeElements (α := ℝ) Real.pi Real.cos Real.sin Real.sqrt

/-- Euclidean distance between two positions (used to state the circular
spacing property). -/
noncomputable def centerDist (p q : Position ℝ) : ℝ :=
  Real.sqrt ((p.x - q.x) ^ 2 + (p.y - q.y) ^ 2)

/-- The center of a drawing element's box: its top-left position offset by
half its size. -/
def boxCenter {α : Type} [LinearOrderedField α] (e : ElemData α) : Position α :=
  ⟨e.position.x + e.size.width / 2, e.position.y + e.size.height / 2⟩

/-- Two element states that agree on every field except possibly the
position: the frame imposed on every write the engine performs. -/
def eqExceptPos {α : Type} (a b : ElemData α) : Prop :=
  a.etype = b.etype ∧ a.name = b.name ∧ a.shapeType = b.shapeType ∧
  a.color = b.color ∧ a.relType = b.relType ∧ a.label = b.label ∧
  a.connector1 = b.connector1 ∧ a.connector2 = b.connector2 ∧ a.size = b.size

section SpecSideDefs

variable {α : Type} [LinearOrderedField α] [FloorRing α]

/-- The spec-side reading of the overlap test: each box, viewed as the open
axis-aligned rectangle grown by `padding` past its right and bottom edges,
meets the other with overlap of nonzero extent on both axes. -/
def inflatedIntersect (cfg : LayoutConfig α) (a b : ElemData α) : Prop :=
  ((Set.Ioo a.position.x (a.position.x + a.size.width + cfg.padding)) ∩
    (Set.Ioo b.position.x (b.position.x + b.size.width + cfg.padding))).Nonempty ∧
  ((Set.Ioo a.position.y (a.position.y + a.size.height + cfg.padding)) ∩
    (Set.Ioo b.position.y (b.position.y + b.size.height + cfg.padding))).Nonempty

/-- The condition under which the force strategy's attraction pass skips a
relationship: an endpoint is null, or it refers to a drawing object that is
not a member of the collection's Drawing list. -/
def skippedRel (s : Store α) (drawings : List Nat) (r : Nat) : Prop :=
  (s r).connector1 = none ∨ (s r).connector2 = none ∨
  (∀ p, (s r).connector1 = some p → p ∉ drawings) ∨
  (∀ q, (s r).connector2 = some q → q ∉ drawings)

/-- The grid-cell position of element `i`, with the code's
`static_cast<int>` truncation. -/
def gridCodePos (canvas : CanvasSize α) (cfg : LayoutConfig α) (s : Store α)
    (elements : List (Option Nat)) (i : ℕ) : Position α :=
  let drawings := getDrawingElements s elements
  let availableWidth := canvas.width - cfg.marginLeft - cfg.marginRight
  let availableHeight := canvas.height - cfg.marginTop - cfg.marginBottom
  let maxWidth := drawings.foldl (fun m d => max m (s d).size.width) 0
  let maxHeight := drawings.foldl (fun m d => max m (s d).size.height) 0
  let cellWidth := maxWidth + cfg.padding
  let cellHeight := maxHeight + cfg.padding
  let cols : ℤ := max 1 (truncToInt (availableWidth / cellWidth))
  let rows : ℤ := ⌈(drawings.length : α) / ((cols : ℤ) : α)⌉
  let rc : ℤ × ℤ :=
    if ((rows : ℤ) : α) * cellHeight > availableHeight then
      let rows2 : ℤ := max 1 (truncToInt (availableHeight / cellHeight))
      (rows2, ⌈(drawings.length : α) / ((rows2 : ℤ) : α)⌉)
    else (rows, cols)
  ⟨cfg.marginLeft + ((i % rc.2.toNat : ℕ) : α) * cellWidth,
   cfg.marginTop + ((i / rc.2.toNat : ℕ) : α) * cellHeight⟩

/-- The claim's grid-cell formula for element `i`, with the mathematical
floor exactly as the specification words it: `cols = max(1,
floor(availableWidth/cellWidth))`, `rows = ceil(count/cols)`, recomputed
as `rows = max(1, floor(availableHeight/cellHeight))`,
`cols = ceil(count/rows)` when the grid would overflow vertically; element
`i` sits row-major at column `i % cols`, row `i / cols`. -/
def gridSpecPos (canvas : CanvasSize α) (cfg : LayoutConfig α) (s : Store α)
    (elements : List (Option Nat)) (i : ℕ) : Position α :=
  let drawings := getDrawingElements s elements
  let availableWidth := canvas.width - cfg.marginLeft - cfg.marginRight
  let availableHeight := canvas.height - cfg.marginTop - cfg.marginBottom
  let maxWidth := drawings.foldl (fun m d => max m (s d).size.width) 0
  let maxHeight := drawings.foldl (fun m d => max m (s d).size.height) 0
  let cellWidth := maxWidth + cfg.padding
  let cellHeight := maxHeight + cfg.padding
  let cols : ℤ := max 1 ⌊availableWidth / cellWidth⌋
  let rows : ℤ := ⌈(drawings.length : α) / ((cols : ℤ) : α)⌉
  let rc : ℤ × ℤ :=
    if ((rows : ℤ) : α) * cellHeight > availableHeight then
      let rows2 : ℤ := max 1 ⌊availableHeight / cellHeight⌋
      (rows2, ⌈(drawings.length : α) / ((rows2 : ℤ) : α)⌉)
    else (rows, cols)
  ⟨cfg.marginLeft + ((i % rc.2.toNat : ℕ) : α) * cellWidth,
   cfg.marginTop + ((i / rc.2.toNat : ℕ) : α) * cellHeight⟩

end SpecSideDefs

/-- The default `LayoutConfig` of the source: Grid strategy, padding 20,
all margins 50, `respectConnections` true. -/
def defaultConfig : LayoutConfig ℚ :=
  ⟨LayoutStrategy.Grid, 20, 50, 50, 50, 50, true⟩

/-- A store whose every object is a Relationship element. -/
def relOnlyStore : Store ℚ :=
  fun _ => ⟨ElementType.Relationship, "", "", "", "", "", none, none, ⟨0, 0⟩, ⟨0, 0⟩⟩

/-- A store whose every object is a zero-size Drawing box at the origin. -/
def zeroBoxStore : Store ℚ :=
  fun _ => ⟨ElementType.Drawing, "", "", "", "", "", none, none, ⟨0, 0⟩, ⟨0, 0⟩⟩

/-- The default configuration with padding overridden to 0. -/
def zeroPadConfig : LayoutConfig ℚ :=
  ⟨LayoutStrategy.Grid, 0, 50, 50, 50, 50, true⟩

/-- Two 100x60 Drawing boxes, one at the origin and one at `(500, 0)`. -/
def boxesFarStore : Store ℚ :=
  fun n => if n = 0 then
    ⟨ElementType.Drawing, "", "", "", "", "", none, none, ⟨0, 0⟩, ⟨100, 60⟩⟩
  else
    ⟨ElementType.Drawing, "", "", "", "", "", none, none, ⟨500, 0⟩, ⟨100, 60⟩⟩

/-- A store with Drawing boxes at ids 0 and 1 and Relationship elements
everywhere else. -/
def mixedStore : Store ℚ :=
  fun n => if n ≤ 1 then
    ⟨ElementType.Drawing, "", "", "", "", "", none, none, ⟨0, 0⟩, ⟨100, 60⟩⟩
  else
    ⟨ElementType.Relationship, "", "", "", "", "", some 0, some 1, ⟨0, 0⟩, ⟨0, 0⟩⟩

/-- The default configuration with the Hierarchical strategy selected. -/
def hierConfig : LayoutConfig ℚ :=
  ⟨LayoutStrategy.Hierarchical, 20, 50, 50, 50, 50, true⟩

/-- Three 100x60 Drawing boxes (ids 0, 1, 2) and three Relationship
elements: id 3 connects 0 to 2, id 4 connects 0 to 1, id 5 connects
1 to 2.  Element 2 is thus a direct child of the root 0 (via id 3) but is
re-assigned level 2 by the later relationship id 5. -/
def cexStoreC4 : Store ℚ := fun n =>
  if n = 0 ∨ n = 1 ∨ n = 2 then
    ⟨ElementType.Drawing, "", "", "", "", "", none, none, ⟨0, 0⟩, ⟨100, 60⟩⟩
  else if n = 3 then
    ⟨ElementType.Relationship, "", "", "", "", "", some 0, some 2, ⟨0, 0⟩, ⟨0, 0⟩⟩
  else if n = 4 then
    ⟨ElementType.Relationship, "", "", "", "", "", some 0, some 1, ⟨0, 0⟩, ⟨0, 0⟩⟩
  else
    ⟨ElementType.Relationship, "", "", "", "", "", some 1, some 2, ⟨0, 0⟩, ⟨0, 0⟩⟩

/-- The collection for the C4 counterexample. -/
def cexElemsC4 : List (Option Nat) :=
  [some 0, some 1, some 2, some 3, some 4, some 5]

/-- Two Drawing boxes (ids 0, 1) and one Relationship (id 2) connecting 0
to 1: 0 is a root, 1 a single-parent direct child of that root. -/
def hierWitStore : Store ℚ := fun n =>
  if n ≤ 1 then
    ⟨ElementType.Drawing, "", "", "", "", "", none, none, ⟨0, 0⟩, ⟨100, 60⟩⟩
  else
    ⟨ElementType.Relationship, "", "", "", "", "", some 0, some 1, ⟨0, 0⟩, ⟨0, 0⟩⟩

/-- The collection for the C4 witness. -/
def hierWitElems : List (Option Nat) := [some 0, some 1, some 2]

/-- Drawings 0 and 1 in the collection, drawing 5 outside it, and two
relationships: id 3 connects 0 to the dangling 5, id 4 connects 5 to 1. -/
def cexStoreC5 : Store ℚ := fun n =>
  if n = 0 ∨ n = 1 ∨ n = 5 then
    ⟨ElementType.Drawing, "", "", "", "", "", none, none, ⟨0, 0⟩, ⟨100, 60⟩⟩
  else if n = 3 then
    ⟨ElementType.Relationship, "", "", "", "", "", some 0, some 5, ⟨0, 0⟩, ⟨0, 0⟩⟩
  else
    ⟨ElementType.Relationship, "", "", "", "", "", some 5, some 1, ⟨0, 0⟩, ⟨0, 0⟩⟩

/-- Five 120x80 Drawing boxes (ids 0..4) plus four Relationship connectors
(ids 5..8) — the end-to-end grid scenario of the specification. -/
def gridStore : Store ℚ := fun n =>
  if n ≤ 4 then
    ⟨ElementType.Drawing, "", "", "", "", "", none, none, ⟨0, 0⟩, ⟨120, 80⟩⟩
  else
    ⟨ElementType.Relationship, "", "", "", "", "", some (n - 5), some (n - 4),
      ⟨0, 0⟩, ⟨0, 0⟩⟩

/-- The collection for the grid scenario. -/
def gridElems : List (Option Nat) :=
  [some 0, some 1, some 2, some 3, some 4, some 5, some 6, some 7, some 8]

/-- Grid strategy with padding 30 and all margins 50. -/
def gridConfig : LayoutConfig ℚ :=
  ⟨LayoutStrategy.Grid, 30, 50, 50, 50, 50, true⟩

/-- Force configuration over the reals: padding 20, all margins 50. -/
noncomputable def forceCfgR : LayoutConfig ℝ :=
  ⟨LayoutStrategy.Force, 20, 50, 50, 50, 50, true⟩

/-- A single oversized 2000x60 Drawing box (every id), refuting the
unconditional clamp-bounds reading of the force strategy on a 100x100
canvas. -/
noncomputable def wideStoreR : Store ℝ := fun _ =>
  ⟨ElementType.Drawing, "", "", "", "", "", none, none, ⟨0, 0⟩, ⟨2000, 60⟩⟩

/-- A single 100x60 Drawing box (every id), which fits comfortably inside
a 1920x1080 canvas with margins 50. -/
noncomputable def fitStoreR : Store ℝ := fun _ =>
  ⟨ElementType.Drawing, "", "", "", "", "", none, none, ⟨0, 0⟩, ⟨100, 60⟩⟩

/-- The circle radius computed by `arrangeCircular`:
`min(availableWidth, availableHeight) / 2 - 100`. -/
def circRadius {α : Type} [LinearOrderedField α] (canvas : CanvasSize α)
    (cfg : LayoutConfig α) : α :=
  min (canvas.width - cfg.marginLeft - cfg.marginRight)
    (canvas.height - cfg.marginTop - cfg.marginBottom) / 2 - 100

/-- Circular configuration over the reals with zero padding and margins. -/
noncomputable def circCfgR : LayoutConfig ℝ :=
  ⟨LayoutStrategy.Circular, 0, 0, 0, 0, 0, true⟩

/-- Four equal 50x50 Drawing boxes (every id). -/
noncomputable def circStoreR : Store ℝ := fun _ =>
  ⟨ElementType.Drawing, "", "", "", "", "", none, none, ⟨0, 0⟩, ⟨50, 50⟩⟩

/-- The collection of the four boxes. -/
def circElems4 : List (Option Nat) := [some 0, some 1, some 2, some 3]

section StoreLemmas

variable {α : Type}

theorem eqExceptPos_refl (a : ElemData α) : eqExceptPos a a := by
  refine ⟨rfl, rfl, rfl, rfl, rfl, rfl, rfl, rfl, rfl⟩

theorem eqExceptPos_trans {a b c : ElemData α} (h1 : eqExceptPos a b)
    (h2 : eqExceptPos b c) : eqExceptPos a c := by
  obtain ⟨e1, e2, e3, e4, e5, e6, e7, e8, e9⟩ := h1
  obtain ⟨f1, f2, f3, f4, f5, f6, f7, f8, f9⟩ := h2
  exact ⟨e1.trans f1, e2.trans f2, e3.trans f3, e4.trans f4, e5.trans f5,
    e6.trans f6, e7.trans f7, e8.trans f8, e9.trans f9⟩

theorem setPos_self (s : Store α) (i : Nat) (p : Position α) :
    (setPos s i p) i = { s i with position := p } := by
  simp [setPos]

theorem setPos_ne (s : Store α) (i : Nat) (p : Position α) {j : Nat}
    (h : j ≠ i) : (setPos s i p) j = s j := by
  simp [setPos, h]

theorem setPos_position (s : Store α) (i : Nat) (p : Position α) :
    ((setPos s i p) i).position = p := by
  simp [setPos]

theorem eqExceptPos_setPos (s : Store α) (i : Nat) (p : Position α) (j : Nat) :
    eqExceptPos (s j) ((setPos s i p) j) := by
  by_cases h : j = i
  · subst h
    rw [setPos_self]
    exact ⟨rfl, rfl, rfl, rfl, rfl, rfl, rfl, rfl, rfl⟩
  · rw [setPos_ne s i p h]
    exact eqExceptPos_refl _

theorem range_foldl_succ {β : Type} (step : β → ℕ → β) (b : β) (n : ℕ) :
    (List.range (n + 1)).foldl step b = step ((List.range n).foldl step b) n := by
  rw [List.range_succ, List.foldl_append]
  rfl

/-- A loop writing positions only preserves every other field of every
element of the store. -/
theorem writeFold_eqExceptPos (tgt : ℕ → ℕ) (val : Store α → ℕ → Position α)
    (s : Store α) (n : ℕ) (j : Nat) :
    eqExceptPos (s j)
      (((List.range n).foldl (fun st i => setPos st (tgt i) (val st i)) s) j) := by
  induction n with
  | zero => exact eqExceptPos_refl _
  | succ n ih =>
    rw [range_foldl_succ]
    exact eqExceptPos_trans ih (eqExceptPos_setPos _ _ _ _)

/-- An element that the loop never targets is left untouched. -/
theorem writeFold_untouched (tgt : ℕ → ℕ) (val : Store α → ℕ → Position α)
    (s : Store α) (n : ℕ) (d : Nat) (h : ∀ i, i < n → tgt i ≠ d) :
    ((List.range n).foldl (fun st i => setPos st (tgt i) (val st i)) s) d = s d := by
  induction n with
  | zero => rfl
  | succ n ih =>
    rw [range_foldl_succ]
    rw [setPos_ne _ _ _ (fun hc => h n (Nat.lt_succ_self n) hc.symm)]
    exact ih (fun i hi => h i (Nat.lt_succ_of_lt hi))

/-- If every value the loop can write to its target satisfies `P`, then any
element the loop targets at least once ends up with a position satisfying
`P`. -/
theorem writeFold_pos_bound (tgt : ℕ → ℕ) (val : Store α → ℕ → Position α)
    (s : Store α) (n : ℕ) (P : ℕ → Position α → Prop)
    (hval : ∀ st, (∀ j, eqExceptPos (s j) (st j)) → ∀ i, i < n → P (tgt i) (val st i))
    (d : Nat) (hd : ∃ i, i < n ∧ tgt i = d) :
    P d ((((List.range n).foldl (fun st i => setPos st (tgt i) (val st i)) s) d).position) := by
  induction n with
  | zero =>
    obtain ⟨i, hi, _⟩ := hd
    exact absurd hi (Nat.not_lt_zero i)
  | succ n ih =>
    rw [range_foldl_succ]
    by_cases hn : tgt n = d
    · rw [← hn, setPos_position]
      exact hval _ (fun j => writeFold_eqExceptPos tgt val s n j) n (Nat.lt_succ_self n)
    · rw [setPos_ne _ _ _ (fun hc => hn hc.symm)]
      obtain ⟨i, hi, hit⟩ := hd
      have hi2 : i < n := by
        rcases Nat.lt_succ_iff_lt_or_eq.mp hi with h1 | h1
        · exact h1
        · exact absurd (h1 ▸ hit) hn
      exact ih (fun st hst i hi3 => hval st hst i (Nat.lt_succ_of_lt hi3)) ⟨i, hi2, hit⟩

/-- If the value written is a pure function of the loop index (whenever the
store still agrees with the initial one off positions), the last write to an
element determines its final position. -/
theorem writeFold_last_write (tgt : ℕ → ℕ) (val : Store α → ℕ → Position α)
    (s : Store α) (n : ℕ) (valPure : ℕ → Position α)
    (hval : ∀ st, (∀ j, eqExceptPos (s j) (st j)) → ∀ i, i < n → val st i = valPure i)
    (d i0 : Nat) (hi0 : i0 < n) (htgt : tgt i0 = d)
    (hlast : ∀ i, i0 < i → i < n → tgt i ≠ d) :
    ((((List.range n).foldl (fun st i => setPos st (tgt i) (val st i)) s) d).position)
      = valPure i0 := by
  induction n with
  | zero => exact absurd hi0 (Nat.not_lt_zero i0)
  | succ n ih =>
    rw [range_foldl_succ]
    by_cases hn : i0 = n
    · subst hn
      rw [← htgt, setPos_position]
      exact hval _ (fun j => writeFold_eqExceptPos tgt val s i0 j) i0 (Nat.lt_succ_self i0)
    · have hi0n : i0 < n := by omega
      have htn : tgt n ≠ d := hlast n (by omega) (Nat.lt_succ_self n)
      rw [setPos_ne _ _ _ (fun hc => htn hc.symm)]
      exact ih (fun st hst i hi3 => hval st hst i (Nat.lt_succ_of_lt hi3)) hi0n
        (fun i h1 h2 => hlast i h1 (Nat.lt_succ_of_lt h2))

end StoreLemmas

section EmptyAndSymmetry

variable {α : Type} [LinearOrderedField α] [FloorRing α]

theorem bool_and_quad_comm (a b c d : Bool) :
    ((a && b) && (c && d)) = ((b && a) && (d && c)) := by
  cases a <;> cases b <;> cases c <;> cases d <;> rfl

/-- Shared helper: `checkOverlap` is symmetric in its two arguments. -/
theorem checkOverlap_symm (cfg : LayoutConfig α) (s : Store α)
    (e1 e2 : Option Nat) :
    checkOverlap cfg s e1 e2 = checkOverlap cfg s e2 e1 := by
  match e1, e2 with
  | none, none => rfl
  | none, some j => rfl
  | some i, none => rfl
  | some i, some j =>
    simp only [checkOverlap]
    by_cases h : (s i).etype ≠ ElementType.Drawing ∨ (s j).etype ≠ ElementType.Drawing
    · rw [if_pos h, if_pos (Or.symm h)]
    · rw [if_neg h, if_neg (fun hc => h (Or.symm hc))]
      exact bool_and_quad_comm _ _ _ _

/-- Shared helper: every strategy returns `(s, emptyResult)` untouched when
the Drawing subset of the collection is empty. -/
theorem arrangeElements_empty (piV : α) (cosF sinF sqrtF : α → α)
    (canvas : CanvasSize α) (cfg : LayoutConfig α) (s : Store α)
    (elements : List (Option Nat))
    (h : getDrawingElements s elements = []) :
    arrangeElements piV cosF sinF sqrtF canvas cfg s elements = (s, emptyResult) := by
  unfold arrangeElements
  cases hs : cfg.strategy
  · simp [arrangeGrid, h]
  · simp [arrangeHierarchical, h]
  · simp [arrangeForce, h]
  · simp [arrangeCircular, h]

end EmptyAndSymmetry

/-- Claim C2: for every input collection whose Drawing subset is empty
(under each of the four strategies, i.e. for every configured strategy),
`arrangeElements` returns `success = true`, `elementsArranged = 0`,
`totalArea = 0`, and leaves every element untouched. -/
theorem claim_C2 {α : Type} [LinearOrderedField α] [FloorRing α]
    (piV : α) (cosF sinF sqrtF : α → α) (canvas : CanvasSize α)
    (cfg : LayoutConfig α) (s : Store α) (elements : List (Option Nat))
    (h : getDrawingElements s elements = []) :
    arrangeElements piV cosF sinF sqrtF canvas cfg s elements =
      (s, { success := true, errorMessage := "", elementsArranged := 0,
            totalArea := 0 }) :=
  arrangeElements_empty piV cosF sinF sqrtF canvas cfg s elements h

/-- Witness for C2 at a concrete input: a two-entry collection holding one
Relationship element and one null pointer, under the default (Grid)
configuration over `ℚ`. -/
theorem claim_C2_witness :
    getDrawingElements relOnlyStore [some 0, none] = ([] : List Nat) ∧
    arrangeElements (0 : ℚ) (fun _ => 0) (fun _ => 0) (fun _ => 0)
      ⟨1920, 1080⟩ defaultConfig relOnlyStore [some 0, none] =
      (relOnlyStore, { success := true, errorMessage := "",
                       elementsArranged := 0, totalArea := 0 }) :=
  ⟨by decide, claim_C2 (0 : ℚ) (fun _ => 0) (fun _ => 0) (fun _ => 0)
    ⟨1920, 1080⟩ defaultConfig relOnlyStore [some 0, none] (by decide)⟩

/-- Claim C10 (implicit): `checkOverlap` is symmetric in its two arguments,
for every pair of arguments (including null pointers and Relationship
elements) and every configuration. -/
theorem claim_C10 {α : Type} [LinearOrderedField α] [FloorRing α]
    (cfg : LayoutConfig α) (s : Store α) (e1 e2 : Option Nat) :
    checkOverlap cfg s e1 e2 = checkOverlap cfg s e2 e1 :=
  checkOverlap_symm cfg s e1 e2

section OverlapOracle

variable {α : Type} [LinearOrderedField α] [FloorRing α]

/-- Unfolding of `checkOverlap` on two Drawing elements. -/
theorem checkOverlap_drawing_iff (cfg : LayoutConfig α) (s : Store α) (i j : Nat)
    (hi : (s i).etype = ElementType.Drawing) (hj : (s j).etype = ElementType.Drawing) :
    checkOverlap cfg s (some i) (some j) = true ↔
      (((s i).position.x + (s i).size.width + cfg.padding > (s j).position.x ∧
        (s j).position.x + (s j).size.width + cfg.padding > (s i).position.x) ∧
       ((s i).position.y + (s i).size.height + cfg.padding > (s j).position.y ∧
        (s j).position.y + (s j).size.height + cfg.padding > (s i).position.y)) := by
  simp [checkOverlap, hi, hj]

/-- `checkOverlap` returns false whenever its first argument is null or a
Relationship element; with symmetry this also covers the second argument. -/
theorem checkOverlap_relish_left (cfg : LayoutConfig α) (s : Store α)
    (e : Option Nat)
    (he : e = none ∨ ∃ k, e = some k ∧ (s k).etype = ElementType.Relationship)
    (f : Option Nat) :
    checkOverlap cfg s e f = false := by
  rcases he with h | ⟨k, hk, hrel⟩
  · subst h
    cases f <;> rfl
  · subst hk
    cases f with
    | none => rfl
    | some j =>
      simp only [checkOverlap]
      rw [if_pos]
      left
      rw [hrel]
      exact fun h => ElementType.noConfusion h

/-- Shared helper: on Drawing elements with nonempty inflated extents, the
code's test agrees with the rectangle-intersection reading. -/
theorem checkOverlap_iff_inflatedIntersect (cfg : LayoutConfig α) (s : Store α)
    (i j : Nat)
    (hi : (s i).etype = ElementType.Drawing) (hj : (s j).etype = ElementType.Drawing)
    (hwi : 0 < (s i).size.width + cfg.padding) (hhi : 0 < (s i).size.height + cfg.padding)
    (hwj : 0 < (s j).size.width + cfg.padding) (hhj : 0 < (s j).size.height + cfg.padding) :
    (checkOverlap cfg s (some i) (some j) = true ↔
      inflatedIntersect cfg (s i) (s j)) := by
  rw [checkOverlap_drawing_iff cfg s i j hi hj]
  unfold inflatedIntersect
  rw [Set.Ioo_inter_Ioo, Set.nonempty_Ioo, Set.Ioo_inter_Ioo, Set.nonempty_Ioo]
  simp only [max_lt_iff, lt_min_iff]
  constructor
  · rintro ⟨⟨a1, a2⟩, b1, b2⟩
    refine ⟨⟨⟨?_, ?_⟩, ?_, ?_⟩, ⟨?_, ?_⟩, ?_, ?_⟩ <;> linarith
  · rintro ⟨⟨⟨a1, a2⟩, a3, a4⟩, ⟨b1, b2⟩, b3, b4⟩
    exact ⟨⟨by linarith, by linarith⟩, by linarith, by linarith⟩

/-- Shared helper: `countOverlaps` vanishes on a collection whose every
entry is null or a Relationship element. -/
theorem countOverlaps_relOnly (cfg : LayoutConfig α) (s : Store α)
    (elems : List (Option Nat))
    (h : ∀ e ∈ elems, e = none ∨ ∃ k, e = some k ∧
      (s k).etype = ElementType.Relationship) :
    countOverlaps cfg s elems = 0 := by
  induction elems with
  | nil => rfl
  | cons e rest ih =>
    show List.countP _ rest + countOverlaps cfg s rest = 0
    rw [ih (fun f hf => h f (List.mem_cons_of_mem e hf)), List.countP_eq_zero.mpr]
    intro f _
    rw [checkOverlap_relish_left cfg s e (h e (List.mem_cons_self e rest)) f]
    exact fun hc => Bool.noConfusion hc

/-- Shared helper: Drawing boxes whose centers are strictly farther apart
than the sum of their half-extents plus the padding, on at least one axis,
never report overlap. -/
theorem checkOverlap_far_false {α : Type} [LinearOrderedField α] [FloorRing α]
    (cfg : LayoutConfig α) (s : Store α) (i j : Nat)
    (hi : (s i).etype = ElementType.Drawing) (hj : (s j).etype = ElementType.Drawing)
    (hfar :
      ((s i).size.width + (s j).size.width) / 2 + cfg.padding <
        |(boxCenter (s i)).x - (boxCenter (s j)).x| ∨
      ((s i).size.height + (s j).size.height) / 2 + cfg.padding <
        |(boxCenter (s i)).y - (boxCenter (s j)).y|) :
    checkOverlap cfg s (some i) (some j) = false := by
  rw [Bool.eq_false_iff]
  intro htrue
  rw [checkOverlap_drawing_iff cfg s i j hi hj] at htrue
  obtain ⟨⟨a1, a2⟩, b1, b2⟩ := htrue
  simp only [boxCenter] at hfar
  rcases hfar with hx | hy
  · rcases lt_abs.mp hx with h | h <;> linarith
  · rcases lt_abs.mp hy with h | h <;> linarith

end OverlapOracle

/-- Claim C6 (amended): for every padding `≥ 0`, two Drawing boxes whose
centers are farther apart than the sum of their half-extents plus the
padding (on either axis) never report overlap; and two Drawing boxes placed
exactly coincident report overlap provided each box's width plus padding
and height plus padding are positive (e.g. for positive-size boxes). -/
theorem claim_C6 {α : Type} [LinearOrderedField α] [FloorRing α]
    (cfg : LayoutConfig α) (s : Store α) (hpad : 0 ≤ cfg.padding) :
    (∀ i j : Nat, (s i).etype = ElementType.Drawing →
      (s j).etype = ElementType.Drawing →
      (((s i).size.width + (s j).size.width) / 2 + cfg.padding <
          |(boxCenter (s i)).x - (boxCenter (s j)).x| ∨
        ((s i).size.height + (s j).size.height) / 2 + cfg.padding <
          |(boxCenter (s i)).y - (boxCenter (s j)).y|) →
      checkOverlap cfg s (some i) (some j) = false) ∧
    (∀ i j : Nat, (s i).etype = ElementType.Drawing →
      (s j).etype = ElementType.Drawing →
      (s i).position = (s j).position →
      0 < (s i).size.width + cfg.padding → 0 < (s i).size.height + cfg.padding →
      0 < (s j).size.width + cfg.padding → 0 < (s j).size.height + cfg.padding →
      checkOverlap cfg s (some i) (some j) = true) := by
  constructor
  · exact fun i j hi hj hfar => checkOverlap_far_false cfg s i j hi hj hfar
  · intro i j hi hj hpos hwi hhi hwj hhj
    rw [checkOverlap_drawing_iff cfg s i j hi hj]
    rw [hpos]
    exact ⟨⟨by linarith, by linarith⟩, by linarith, by linarith⟩

/-- Counterexample to C6 as stated: with padding `0` (which is `≥ 0`), two
zero-size Drawing boxes placed exactly coincident do NOT report overlap. -/
theorem claim_C6_cex :
    0 ≤ zeroPadConfig.padding ∧
    (zeroBoxStore 0).etype = ElementType.Drawing ∧
    (zeroBoxStore 1).etype = ElementType.Drawing ∧
    (zeroBoxStore 0).position = (zeroBoxStore 1).position ∧
    checkOverlap zeroPadConfig zeroBoxStore (some 0) (some 1) = false := by
  refine ⟨by norm_num [zeroPadConfig], rfl, rfl, rfl, ?_⟩
  norm_num [checkOverlap, zeroBoxStore, zeroPadConfig]

/-- Witness for C6 at concrete inputs: with the default padding 20, the two
far-apart 100x60 boxes do not overlap, and a coincident positive-size pair
does. -/
theorem claim_C6_witness :
    (0 : ℚ) ≤ defaultConfig.padding ∧
    checkOverlap defaultConfig boxesFarStore (some 0) (some 1) = false ∧
    checkOverlap defaultConfig boxesFarStore (some 0) (some 0) = true :=
  ⟨by norm_num [defaultConfig],
   (claim_C6 defaultConfig boxesFarStore (by norm_num [defaultConfig])).1 0 1
     rfl rfl (Or.inl (by norm_num [boxesFarStore, boxCenter, defaultConfig])),
   (claim_C6 defaultConfig boxesFarStore (by norm_num [defaultConfig])).2 0 0
     rfl rfl rfl (by norm_num [boxesFarStore, defaultConfig])
     (by norm_num [boxesFarStore, defaultConfig])
     (by norm_num [boxesFarStore, defaultConfig])
     (by norm_num [boxesFarStore, defaultConfig])⟩

/-- Claim C7: `checkOverlap` returns false when either argument is null or
a Relationship element; on two Drawing elements (with nonempty inflated
extents) it returns true iff the two rectangles, each inflated by the
configured padding on its trailing (right and bottom) edges only, intersect
on both axes; and `countOverlaps` over a collection containing only
Relationship elements (or nulls) is 0 regardless of positions. -/
theorem claim_C7 {α : Type} [LinearOrderedField α] [FloorRing α]
    (cfg : LayoutConfig α) (s : Store α) :
    (∀ e : Option Nat, checkOverlap cfg s none e = false ∧
      checkOverlap cfg s e none = false) ∧
    (∀ i j : Nat,
      ((s i).etype = ElementType.Relationship ∨
        (s j).etype = ElementType.Relationship) →
      checkOverlap cfg s (some i) (some j) = false) ∧
    (∀ i j : Nat, (s i).etype = ElementType.Drawing →
      (s j).etype = ElementType.Drawing →
      0 < (s i).size.width + cfg.padding → 0 < (s i).size.height + cfg.padding →
      0 < (s j).size.width + cfg.padding → 0 < (s j).size.height + cfg.padding →
      (checkOverlap cfg s (some i) (some j) = true ↔
        inflatedIntersect cfg (s i) (s j))) ∧
    (∀ elems : List (Option Nat),
      (∀ e ∈ elems, e = none ∨ ∃ k, e = some k ∧
        (s k).etype = ElementType.Relationship) →
      countOverlaps cfg s elems = 0) := by
  refine ⟨?_, ?_, ?_, ?_⟩
  · intro e
    exact ⟨by cases e <;> rfl, by cases e <;> rfl⟩
  · intro i j hij
    rcases hij with h | h
    · exact checkOverlap_relish_left cfg s (some i) (Or.inr ⟨i, rfl, h⟩) (some j)
    · rw [checkOverlap_symm]
      exact checkOverlap_relish_left cfg s (some j) (Or.inr ⟨j, rfl, h⟩) (some i)
  · exact fun i j hi hj hwi hhi hwj hhj =>
      checkOverlap_iff_inflatedIntersect cfg s i j hi hj hwi hhi hwj hhj
  · exact fun elems h => countOverlaps_relOnly cfg s elems h

/-- Witness for C7 at concrete inputs over `ℚ`. -/
theorem claim_C7_witness :
    checkOverlap defaultConfig mixedStore none (some 0) = false ∧
    checkOverlap defaultConfig mixedStore (some 2) (some 0) = false ∧
    (checkOverlap defaultConfig mixedStore (some 0) (some 1) = true ↔
      inflatedIntersect defaultConfig (mixedStore 0) (mixedStore 1)) ∧
    countOverlaps defaultConfig mixedStore [some 2, some 3, none] = 0 :=
  ⟨((claim_C7 defaultConfig mixedStore).1 (some 0)).1,
   (claim_C7 defaultConfig mixedStore).2.1 2 0 (Or.inl (by decide)),
   (claim_C7 defaultConfig mixedStore).2.2.1 0 1 rfl rfl
     (by norm_num [mixedStore, defaultConfig])
     (by norm_num [mixedStore, defaultConfig])
     (by norm_num [mixedStore, defaultConfig])
     (by norm_num [mixedStore, defaultConfig]),
   (claim_C7 defaultConfig mixedStore).2.2.2 [some 2, some 3, none]
     (by decide)⟩

section FrameLemmas

variable {α : Type} [LinearOrderedField α] [FloorRing α]

/-- A predicate preserved by every step of a left fold holds of the result. -/
theorem foldl_pred {β γ : Type} (P : γ → Prop) (step : γ → β → γ)
    (l : List β) (hstep : ∀ st b, b ∈ l → P st → P (step st b))
    (st : γ) (h : P st) : P (l.foldl step st) := by
  induction l generalizing st with
  | nil => exact h
  | cons b rest ih =>
    exact ih (fun st2 b2 hb2 => hstep st2 b2 (List.mem_cons_of_mem b hb2)) _
      (hstep st b (List.mem_cons_self b rest) h)

theorem getD_mem_of_lt (l : List Nat) (k : ℕ) (h : k < l.length) :
    l.getD k 0 ∈ l := by
  induction l generalizing k with
  | nil => exact absurd h (Nat.not_lt_zero k)
  | cons a rest ih =>
    cases k with
    | zero => exact List.mem_cons_self a rest
    | succ k =>
      exact List.mem_cons_of_mem a (ih k (Nat.lt_of_succ_lt_succ h))

/-- Frame property of the grid placement loop. -/
theorem gridPlace_frame (drawings : List Nat) (count rowsN colsN : ℕ)
    (mL mT cw ch : α) (s : Store α) (hcount : count ≤ drawings.length) :
    (∀ j, eqExceptPos (s j) ((gridPlace drawings count rowsN colsN mL mT cw ch s).1 j)) ∧
    (∀ d, d ∉ drawings →
      (gridPlace drawings count rowsN colsN mL mT cw ch s).1 d = s d) := by
  unfold gridPlace
  constructor
  · intro j
    refine foldl_pred (fun (st : Store α × ℕ) => eqExceptPos (s j) (st.1 j)) _ _
      (fun st row _ hst => ?_) _ (eqExceptPos_refl _)
    unfold gridRow
    refine foldl_pred (fun (st : Store α × ℕ) => eqExceptPos (s j) (st.1 j)) _ _
      (fun st2 col _ hst2 => ?_) _ hst
    dsimp only
    split
    · exact eqExceptPos_trans hst2 (eqExceptPos_setPos _ _ _ _)
    · exact hst2
  · intro d hd
    refine foldl_pred (fun (st : Store α × ℕ) => st.1 d = s d) _ _
      (fun st row _ hst => ?_) _ rfl
    unfold gridRow
    refine foldl_pred (fun (st : Store α × ℕ) => st.1 d = s d) _ _
      (fun st2 col _ hst2 => ?_) _ hst
    dsimp only
    split
    · next hlt =>
      have hmem := getD_mem_of_lt drawings st2.2 (lt_of_lt_of_le hlt hcount)
      exact (setPos_ne st2.1 (drawings.getD st2.2 0) _
        (fun hc2 => hd (by rw [hc2]; exact hmem))).trans hst2
    · exact hst2

/-- Frame property of the hierarchical positioning loop. -/
theorem hierPlace_frame (drawings : List Nat) (lm : List (Nat × Nat))
    (aW mL mT : α) (s : Store α) :
    (∀ j, eqExceptPos (s j) ((hierPlace drawings lm aW mL mT s) j)) ∧
    (∀ d, d ∉ drawings → (hierPlace drawings lm aW mL mT s) d = s d) := by
  unfold hierPlace
  constructor
  · intro j
    refine foldl_pred (fun (st : Store α) => eqExceptPos (s j) (st j)) _ _
      (fun st level _ hst => ?_) _ (eqExceptPos_refl _)
    unfold hierRowPlace
    dsimp only
    split
    · exact hst
    · refine foldl_pred (fun (st : Store α) => eqExceptPos (s j) (st j)) _ _
        (fun st2 i _ hst2 => ?_) _ hst
      exact eqExceptPos_trans hst2 (eqExceptPos_setPos _ _ _ _)
  · intro d hd
    refine foldl_pred (fun (st : Store α) => st d = s d) _ _
      (fun st level _ hst => ?_) _ rfl
    unfold hierRowPlace
    dsimp only
    split
    · exact hst
    · refine foldl_pred (fun (st : Store α) => st d = s d) _ _
        (fun st2 i hi hst2 => ?_) _ hst
      have hi2 := List.mem_range.mp hi
      have hmem := List.mem_of_mem_filter (getD_mem_of_lt _ _ hi2)
      exact (setPos_ne st2 _ _
        (fun hc2 => hd (by rw [hc2]; exact hmem))).trans hst2

/-- Frame property of the force seeding loop. -/
theorem forceSeed_frame (piV : α) (cosF sinF : α → α) (cX cY : α)
    (drawings : List Nat) (s : Store α) :
    (∀ j, eqExceptPos (s j) ((forceSeed piV cosF sinF cX cY drawings s) j)) ∧
    (∀ d, d ∉ drawings → (forceSeed piV cosF sinF cX cY drawings s) d = s d) := by
  unfold forceSeed
  constructor
  · intro j
    refine foldl_pred (fun (st : Store α) => eqExceptPos (s j) (st j)) _ _
      (fun st i _ hst => ?_) _ (eqExceptPos_refl _)
    exact eqExceptPos_trans hst (eqExceptPos_setPos _ _ _ _)
  · intro d hd
    refine foldl_pred (fun (st : Store α) => st d = s d) _ _
      (fun st i hi hst => ?_) _ rfl
    have hi2 := List.mem_range.mp hi
    have hmem := getD_mem_of_lt drawings i hi2
    exact (setPos_ne st (drawings.getD i 0) _
      (fun hc2 => hd (by rw [hc2]; exact hmem))).trans hst

/-- Frame property of one force iteration. -/
theorem forceIter_frame (sqrtF : α → α) (canvas : CanvasSize α)
    (cfg : LayoutConfig α) (drawings rels : List Nat) (st : Store α) :
    (∀ j, eqExceptPos (st j) ((forceIter sqrtF canvas cfg drawings rels st) j)) ∧
    (∀ d, d ∉ drawings → (forceIter sqrtF canvas cfg drawings rels st) d = st d) := by
  unfold forceIter
  constructor
  · intro j
    refine foldl_pred (fun (s2 : Store α) => eqExceptPos (st j) (s2 j)) _ _
      (fun s2 i _ hs2 => ?_) _ (eqExceptPos_refl _)
    exact eqExceptPos_trans hs2 (eqExceptPos_setPos _ _ _ _)
  · intro d hd
    refine foldl_pred (fun (s2 : Store α) => s2 d = st d) _ _
      (fun s2 i hi hs2 => ?_) _ rfl
    have hi2 := List.mem_range.mp hi
    have hmem := getD_mem_of_lt drawings i hi2
    exact (setPos_ne s2 (drawings.getD i 0) _
      (fun hc2 => hd (by rw [hc2]; exact hmem))).trans hs2

/-- Frame property of the circular placement loop. -/
theorem circPlace_frame (piV : α) (cosF sinF : α → α) (cX cY r : α)
    (drawings : List Nat) (s : Store α) :
    (∀ j, eqExceptPos (s j) ((circPlace piV cosF sinF cX cY r drawings s) j)) ∧
    (∀ d, d ∉ drawings → (circPlace piV cosF sinF cX cY r drawings s) d = s d) := by
  unfold circPlace
  constructor
  · intro j
    refine foldl_pred (fun (st : Store α) => eqExceptPos (s j) (st j)) _ _
      (fun st i _ hst => ?_) _ (eqExceptPos_refl _)
    exact eqExceptPos_trans hst (eqExceptPos_setPos _ _ _ _)
  · intro d hd
    refine foldl_pred (fun (st : Store α) => st d = s d) _ _
      (fun st i hi hst => ?_) _ rfl
    have hi2 := List.mem_range.mp hi
    have hmem := getD_mem_of_lt drawings i hi2
    exact (setPos_ne st (drawings.getD i 0) _
      (fun hc2 => hd (by rw [hc2]; exact hmem))).trans hst

/-- Frame property of the grid strategy. -/
theorem arrangeGrid_frame (canvas : CanvasSize α) (cfg : LayoutConfig α)
    (s : Store α) (elements : List (Option Nat)) :
    (∀ j, eqExceptPos (s j) ((arrangeGrid canvas cfg s elements).1 j)) ∧
    (∀ d, d ∉ getDrawingElements s elements →
      (arrangeGrid canvas cfg s elements).1 d = s d) := by
  unfold arrangeGrid
  by_cases h : getDrawingElements s elements = []
  · rw [if_pos h]
    exact ⟨fun j => eqExceptPos_refl _, fun d _ => rfl⟩
  · rw [if_neg h]
    dsimp only
    exact ⟨fun j => (gridPlace_frame _ _ _ _ _ _ _ _ _ (le_refl _)).1 j,
      fun d hd => (gridPlace_frame _ _ _ _ _ _ _ _ _ (le_refl _)).2 d hd⟩

/-- Frame property of the hierarchical strategy. -/
theorem arrangeHierarchical_frame (canvas : CanvasSize α) (cfg : LayoutConfig α)
    (s : Store α) (elements : List (Option Nat)) :
    (∀ j, eqExceptPos (s j) ((arrangeHierarchical canvas cfg s elements).1 j)) ∧
    (∀ d, d ∉ getDrawingElements s elements →
      (arrangeHierarchical canvas cfg s elements).1 d = s d) := by
  unfold arrangeHierarchical
  by_cases h : getDrawingElements s elements = []
  · rw [if_pos h]
    exact ⟨fun j => eqExceptPos_refl _, fun d _ => rfl⟩
  · rw [if_neg h]
    dsimp only
    exact ⟨fun j => (hierPlace_frame _ _ _ _ _ _).1 j,
      fun d hd => (hierPlace_frame _ _ _ _ _ _).2 d hd⟩

/-- Frame property of the force strategy. -/
theorem arrangeForce_frame (piV : α) (cosF sinF sqrtF : α → α)
    (canvas : CanvasSize α) (cfg : LayoutConfig α)
    (s : Store α) (elements : List (Option Nat)) :
    (∀ j, eqExceptPos (s j)
      ((arrangeForce piV cosF sinF sqrtF canvas cfg s elements).1 j)) ∧
    (∀ d, d ∉ getDrawingElements s elements →
      (arrangeForce piV cosF sinF sqrtF canvas cfg s elements).1 d = s d) := by
  unfold arrangeForce
  by_cases h : getDrawingElements s elements = []
  · rw [if_pos h]
    exact ⟨fun j => eqExceptPos_refl _, fun d _ => rfl⟩
  · rw [if_neg h]
    dsimp only
    constructor
    · intro j
      refine foldl_pred (fun (s2 : Store α) => eqExceptPos (s j) (s2 j)) _ _
        (fun s2 i _ hs2 =>
          eqExceptPos_trans hs2 ((forceIter_frame _ _ _ _ _ _).1 j)) _ ?_
      exact eqExceptPos_trans (eqExceptPos_refl _) ((forceSeed_frame _ _ _ _ _ _ _).1 j)
    · intro d hd
      refine foldl_pred (fun (s2 : Store α) => s2 d = s d) _ _
        (fun s2 i _ hs2 => ?_) _ ?_
      · exact ((forceIter_frame sqrtF canvas cfg _ _ s2).2 d hd).trans hs2
      · exact (forceSeed_frame _ _ _ _ _ _ _).2 d hd

/-- Frame property of the circular strategy. -/
theorem arrangeCircular_frame (piV : α) (cosF sinF : α → α)
    (canvas : CanvasSize α) (cfg : LayoutConfig α)
    (s : Store α) (elements : List (Option Nat)) :
    (∀ j, eqExceptPos (s j)
      ((arrangeCircular piV cosF sinF canvas cfg s elements).1 j)) ∧
    (∀ d, d ∉ getDrawingElements s elements →
      (arrangeCircular piV cosF sinF canvas cfg s elements).1 d = s d) := by
  unfold arrangeCircular
  by_cases h : getDrawingElements s elements = []
  · rw [if_pos h]
    exact ⟨fun j => eqExceptPos_refl _, fun d _ => rfl⟩
  · rw [if_neg h]
    dsimp only
    exact ⟨fun j => (circPlace_frame _ _ _ _ _ _ _ _).1 j,
      fun d hd => (circPlace_frame _ _ _ _ _ _ _ _).2 d hd⟩

end FrameLemmas

/-- Claim C9: across every `arrangeElements` call (any strategy), the only
element field the engine writes is `position`, and only on Drawing elements
present in the collection: every element keeps its type, name, style,
color, relationship type, label, connector references and size, and any
object that is not a Drawing member of the collection (in particular every
Relationship element) is left entirely unchanged, position included. -/
theorem claim_C9 {α : Type} [LinearOrderedField α] [FloorRing α]
    (piV : α) (cosF sinF sqrtF : α → α) (canvas : CanvasSize α)
    (cfg : LayoutConfig α) (s : Store α) (elements : List (Option Nat)) :
    (∀ j, eqExceptPos (s j)
      ((arrangeElements piV cosF sinF sqrtF canvas cfg s elements).1 j)) ∧
    (∀ d, d ∉ getDrawingElements s elements →
      (arrangeElements piV cosF sinF sqrtF canvas cfg s elements).1 d = s d) := by
  unfold arrangeElements
  cases hs : cfg.strategy
  · exact arrangeGrid_frame canvas cfg s elements
  · exact arrangeHierarchical_frame canvas cfg s elements
  · exact arrangeForce_frame piV cosF sinF sqrtF canvas cfg s elements
  · exact arrangeCircular_frame piV cosF sinF canvas cfg s elements

/-- Witness for C9 at a concrete input over `ℚ`: a Drawing and a
Relationship element under the default Grid configuration; the
Relationship object (id 2) is untouched. -/
theorem claim_C9_witness :
    (∀ j, eqExceptPos (mixedStore j)
      ((arrangeElements (0 : ℚ) (fun _ => 0) (fun _ => 0) (fun _ => 0)
        ⟨1600, 900⟩ defaultConfig mixedStore [some 0, some 2]).1 j)) ∧
    (2 ∉ getDrawingElements mixedStore [some 0, some 2]) ∧
    ((arrangeElements (0 : ℚ) (fun _ => 0) (fun _ => 0) (fun _ => 0)
        ⟨1600, 900⟩ defaultConfig mixedStore [some 0, some 2]).1 2 = mixedStore 2) :=
  ⟨(claim_C9 (0 : ℚ) (fun _ => 0) (fun _ => 0) (fun _ => 0)
      ⟨1600, 900⟩ defaultConfig mixedStore [some 0, some 2]).1,
   by decide,
   (claim_C9 (0 : ℚ) (fun _ => 0) (fun _ => 0) (fun _ => 0)
      ⟨1600, 900⟩ defaultConfig mixedStore [some 0, some 2]).2 2 (by decide)⟩

section HierLemmas

variable {α : Type} [LinearOrderedField α] [FloorRing α]

theorem lmLookup_insert_self (lm : List (Nat × Nat)) (k v : Nat) :
    lmLookup (lmInsert lm k v) k = some v := by
  unfold lmInsert lmLookup
  split
  · next hs =>
    obtain ⟨e, he⟩ := Option.isSome_iff_exists.mp hs
    have hpe : ((fun (x : Nat × Nat) => x.1 == k) ∘
        (fun e => if e.1 == k then (k, v) else e)) =
        fun (x : Nat × Nat) => x.1 == k := by
      funext x
      by_cases hx : x.1 = k <;> simp [hx]
    rw [List.find?_map, hpe, he]
    have hek := List.find?_some he
    simp only [beq_iff_eq] at hek
    simp [hek]
  · next hs =>
    have hn : lm.find? (fun e => e.1 == k) = none := by
      cases hf : lm.find? (fun e => e.1 == k) with
      | none => rfl
      | some e => exact absurd (by rw [hf]; rfl) hs
    rw [List.find?_append, hn]
    simp

theorem lmLookup_insert_other (lm : List (Nat × Nat)) (k v k2 : Nat)
    (h : k2 ≠ k) : lmLookup (lmInsert lm k v) k2 = lmLookup lm k2 := by
  unfold lmInsert lmLookup
  split
  · have hpe : ((fun (x : Nat × Nat) => x.1 == k2) ∘
        (fun e => if e.1 == k then (k, v) else e)) =
        fun (x : Nat × Nat) => x.1 == k2 := by
      funext x
      by_cases hx : x.1 = k <;> simp [hx]
    rw [List.find?_map, hpe]
    cases hf : lm.find? (fun x => x.1 == k2) with
    | none => simp
    | some e =>
      have he := List.find?_some hf
      simp only [beq_iff_eq] at he
      have hek : ¬ e.1 = k := by
        rw [he]
        exact h
      simp [hek]
  · rw [List.find?_append]
    have h2 : List.find? (fun x => x.1 == k2) [(k, v)] = none := by
      simp
      exact fun hc => absurd hc.symm h
    rw [h2]
    cases lm.find? (fun x => x.1 == k2) <;> rfl

/-- Folding zero-level inserts: any key inserted along the way (or already
mapped to 0) ends mapped to 0. -/
theorem lmInsert_zero_fold (l : List Nat) (lm : List (Nat × Nat)) (d : Nat)
    (h : lmLookup lm d = some 0 ∨ d ∈ l) :
    lmLookup (l.foldl (fun lm2 k => lmInsert lm2 k 0) lm) d = some 0 := by
  induction l generalizing lm with
  | nil =>
    rcases h with h | h
    · exact h
    · exact absurd h (List.not_mem_nil d)
  | cons a rest ih =>
    apply ih
    by_cases had : d = a
    · left
      rw [had, lmLookup_insert_self]
    · rcases h with h | h
      · left
        rw [lmLookup_insert_other lm a 0 d had]
        exact h
      · rcases List.mem_cons.mp h with h2 | h2
        · exact absurd h2 had
        · right
          exact h2

/-- A `hierStep` whose relationship does not name `k` as child preserves
the lookup at `k`. -/
theorem hierStep_preserve (s : Store α) (lm : List (Nat × Nat)) (r k : Nat)
    (h : ∀ c, (s r).connector2 = some c → c ≠ k) :
    lmLookup (hierStep s lm r) k = lmLookup lm k := by
  unfold hierStep
  cases hc1 : (s r).connector1 with
  | none => rfl
  | some p =>
    cases hc2 : (s r).connector2 with
    | none => rfl
    | some c =>
      dsimp only
      cases hlp : lmLookup lm p with
      | none => rfl
      | some lp => exact lmLookup_insert_other lm c (lp + 1) k (Ne.symm (h c hc2))

/-- A `hierStep` on a relationship with both endpoints set whose parent has
a level assigns the child the parent's level plus one. -/
theorem hierStep_child (s : Store α) (lm : List (Nat × Nat)) (r p c lp : Nat)
    (hc1 : (s r).connector1 = some p) (hc2 : (s r).connector2 = some c)
    (hlp : lmLookup lm p = some lp) :
    hierStep s lm r = lmInsert lm c (lp + 1) := by
  unfold hierStep
  rw [hc1, hc2]
  dsimp only
  rw [hlp]

theorem hierFold_preserve (s : Store α) (l : List Nat) (lm : List (Nat × Nat))
    (k : Nat) (h : ∀ r ∈ l, ∀ c, (s r).connector2 = some c → c ≠ k) :
    lmLookup (l.foldl (hierStep s) lm) k = lmLookup lm k := by
  induction l generalizing lm with
  | nil => rfl
  | cons r rest ih =>
    rw [List.foldl_cons,
      ih _ (fun r2 h2 => h r2 (List.mem_cons_of_mem r h2)),
      hierStep_preserve s lm r k (h r (List.mem_cons_self r rest))]

/-- A root drawing (one that is never a `connector2`) keeps level 0 in the
final level map. -/
theorem hierLevelMap_root (s : Store α) (drawings rels : List Nat) (d : Nat)
    (hd : d ∈ drawings)
    (hroot : ∀ r ∈ rels, (s r).connector2 ≠ some d) :
    lmLookup (hierLevelMap s drawings rels) d = some 0 := by
  unfold hierLevelMap
  have hnp : hasParent s rels d = false := by
    unfold hasParent
    rw [List.any_eq_false]
    intro r hr
    simp only [beq_iff_eq]
    exact hroot r hr
  have hd0 : d ∈ drawings.filter (fun d2 => ! hasParent s rels d2) := by
    rw [List.mem_filter]
    exact ⟨hd, by rw [hnp]; rfl⟩
  have hne : drawings.filter (fun d2 => ! hasParent s rels d2) ≠ [] :=
    List.ne_nil_of_mem hd0
  rw [hierFold_preserve s rels _ d
    (fun r hr c hc hcd => hroot r hr (hcd ▸ hc))]
  rw [if_neg hne]
  exact lmInsert_zero_fold _ [] d (Or.inr hd0)

/-- A drawing whose only incoming relationship comes from a root is
assigned level 1 by the single-pass leveling. -/
theorem hierLevelMap_unique_child (s : Store α) (drawings : List Nat)
    (u v : List Nat) (r d p : Nat)
    (hc1 : (s r).connector1 = some p) (hc2 : (s r).connector2 = some d)
    (hp : p ∈ drawings)
    (hproot : ∀ r2 ∈ u ++ r :: v, (s r2).connector2 ≠ some p)
    (hu : ∀ r2 ∈ u, (s r2).connector2 ≠ some d)
    (hv : ∀ r2 ∈ v, (s r2).connector2 ≠ some d) :
    lmLookup (hierLevelMap s drawings (u ++ r :: v)) d = some 1 := by
  unfold hierLevelMap
  rw [List.foldl_append, List.foldl_cons]
  rw [hierFold_preserve s v _ d (fun r2 h2 c hc hcd => hv r2 h2 (hcd ▸ hc))]
  have hple : lmLookup ((u.foldl (hierStep s)
      (((if drawings.filter (fun d2 => ! hasParent s (u ++ r :: v) d2) = []
        then drawings
        else drawings.filter (fun d2 => ! hasParent s (u ++ r :: v) d2)).foldl
          (fun lm2 k => lmInsert lm2 k 0) [])))) p = some 0 := by
    rw [hierFold_preserve s u _ p
      (fun r2 h2 c hc hcd =>
        hproot r2 (List.mem_append_left _ h2) (hcd ▸ hc))]
    have hnp : hasParent s (u ++ r :: v) p = false := by
      unfold hasParent
      rw [List.any_eq_false]
      intro r2 hr2
      simp only [beq_iff_eq]
      exact hproot r2 hr2
    have hp0 : p ∈ drawings.filter (fun d2 => ! hasParent s (u ++ r :: v) d2) := by
      rw [List.mem_filter]
      exact ⟨hp, by rw [hnp]; rfl⟩
    rw [if_neg (List.ne_nil_of_mem hp0)]
    exact lmInsert_zero_fold _ [] p (Or.inr hp0)
  rw [hierStep_child s _ r p d 0 hc1 hc2 hple]
  exact lmLookup_insert_self _ d 1

theorem foldl_max_init_le (l : List (Nat × Nat)) (init : Nat) :
    init ≤ l.foldl (fun m e => max m e.2) init := by
  induction l generalizing init with
  | nil => exact le_refl init
  | cons a rest ih => exact le_trans (le_max_left init a.2) (ih (max init a.2))

theorem foldl_max_mem_le (l : List (Nat × Nat)) (init : Nat) (e : Nat × Nat)
    (he : e ∈ l) : e.2 ≤ l.foldl (fun m e => max m e.2) init := by
  induction l generalizing init with
  | nil => exact absurd he (List.not_mem_nil e)
  | cons a rest ih =>
    rcases List.mem_cons.mp he with h | h
    · rw [List.foldl_cons]
      exact le_trans (h ▸ le_max_right init a.2) (foldl_max_init_le rest _)
    · exact ih _ h

/-- Every level used when bucketing is at most `lmMax`. -/
theorem levelOf_le_lmMax (lm : List (Nat × Nat)) (d : Nat) :
    levelOf lm d ≤ lmMax lm := by
  unfold levelOf
  cases hlk : lmLookup lm d with
  | none => exact Nat.zero_le _
  | some v =>
    unfold lmLookup at hlk
    cases hf : lm.find? (fun e => e.1 == d) with
    | none => rw [hf] at hlk; simp at hlk
    | some e =>
      rw [hf] at hlk
      simp only [Option.map_some', Option.some_inj] at hlk
      have hmem := List.mem_of_find?_eq_some hf
      unfold lmMax
      rw [Option.getD_some]
      exact hlk ▸ foldl_max_mem_le lm 0 e hmem

theorem getD_eq_get (l : List Nat) (k : ℕ) (h : k < l.length) :
    l.getD k 0 = l.get ⟨k, h⟩ := by
  induction l generalizing k with
  | nil => exact absurd h (Nat.not_lt_zero k)
  | cons a rest ih =>
    cases k with
    | zero => rfl
    | succ k => exact ih k (Nat.lt_of_succ_lt_succ h)

theorem exists_getD_of_mem (l : List Nat) (d : Nat) (h : d ∈ l) :
    ∃ i, i < l.length ∧ l.getD i 0 = d := by
  induction l with
  | nil => exact absurd h (List.not_mem_nil d)
  | cons a rest ih =>
    rcases List.mem_cons.mp h with h2 | h2
    · exact ⟨0, Nat.succ_pos _, h2.symm⟩
    · obtain ⟨i, hi, hgd⟩ := ih h2
      exact ⟨i + 1, Nat.succ_lt_succ hi, hgd⟩

/-- A drawing not in this level's bucket is untouched by the row pass. -/
theorem hierRowPlace_not_mem (drawings : List Nat) (lm : List (Nat × Nat))
    (aW mL mT : α) (st : Store α) (level : ℕ) (d : Nat)
    (hd : d ∉ drawings.filter (fun d2 => levelOf lm d2 == level)) :
    hierRowPlace drawings lm aW mL mT st level d = st d := by
  unfold hierRowPlace
  dsimp only
  split
  · rfl
  · refine writeFold_untouched _ _ st _ d (fun i hilt => ?_)
    intro hc
    exact hd (hc ▸ getD_mem_of_lt _ _ hilt)

/-- A drawing in this level's bucket ends the row pass on the row's
vertical position. -/
theorem hierRowPlace_mem_y (drawings : List Nat) (lm : List (Nat × Nat))
    (aW mL mT : α) (st : Store α) (level : ℕ) (d : Nat)
    (hd : d ∈ drawings.filter (fun d2 => levelOf lm d2 == level)) :
    ((hierRowPlace drawings lm aW mL mT st level) d).position.y =
      mT + (level : α) * 150 := by
  unfold hierRowPlace
  dsimp only
  rw [if_neg (fun hc => List.not_mem_nil d (List.length_eq_zero.mp hc ▸ hd))]
  obtain ⟨i0, hi0, hgd⟩ := exists_getD_of_mem _ d hd
  exact writeFold_pos_bound _ _ st _
    (fun d2 p => p.y = mT + (level : α) * 150)
    (fun st2 hst2 i hilt => rfl) d ⟨i0, hi0, hgd⟩

/-- Vertical-position characterization of the hierarchical positioning
loop: every drawing of the collection ends at
`marginTop + 150 * its bucket level`. -/
theorem hierPlace_y (drawings : List Nat) (lm : List (Nat × Nat))
    (aW mL mT : α) (s : Store α) (d : Nat) (hd : d ∈ drawings) :
    ((hierPlace drawings lm aW mL mT s) d).position.y =
      mT + (levelOf lm d : α) * 150 := by
  unfold hierPlace
  have hin : levelOf lm d ∈ List.range (lmMax lm + 1) :=
    List.mem_range.mpr (Nat.lt_succ_of_le (levelOf_le_lmMax lm d))
  generalize List.range (lmMax lm + 1) = L at hin ⊢
  induction L generalizing s with
  | nil => exact absurd hin (List.not_mem_nil _)
  | cons a L2 ih =>
    rw [List.foldl_cons]
    by_cases hL2 : levelOf lm d ∈ L2
    · exact ih _ hL2
    · have ha : levelOf lm d = a := by
        rcases List.mem_cons.mp hin with h2 | h2
        · exact h2
        · exact absurd h2 hL2
      have hL2fix : ∀ st : Store α,
          (L2.foldl (hierRowPlace drawings lm aW mL mT) st) d = st d := by
        intro st
        refine foldl_pred (fun (s2 : Store α) => s2 d = st d) _ _
          (fun s2 lv hlv hs2 => ?_) _ rfl
        refine (hierRowPlace_not_mem drawings lm aW mL mT s2 lv d ?_).trans hs2
        intro hc
        have heq : levelOf lm d = lv := by
          simpa using (List.mem_filter.mp hc).2
        exact hL2 (by rw [heq]; exact hlv)
      rw [hL2fix]
      rw [ha]
      refine hierRowPlace_mem_y drawings lm aW mL mT s a d ?_
      rw [List.mem_filter]
      exact ⟨hd, by rw [ha]; simp⟩

end HierLemmas

/-- Claim C4 (amended): in the hierarchical strategy, every root Drawing
element (never the `connector2` of any Relationship in the collection) is
placed at `y = marginTop`; and a direct child of a root is placed at
`y = marginTop + 150` provided the relationship from the root is the only
one in the collection whose `connector2` is that child (the single-pass
leveling lets the last matching relationship win, so a child with several
incoming relationships can land on a deeper row). -/
theorem claim_C4 {α : Type} [LinearOrderedField α] [FloorRing α]
    (canvas : CanvasSize α) (cfg : LayoutConfig α) (s : Store α)
    (elements : List (Option Nat)) :
    (∀ d, d ∈ getDrawingElements s elements →
      (∀ r ∈ getRelationshipElements s elements, (s r).connector2 ≠ some d) →
      ((arrangeHierarchical canvas cfg s elements).1 d).position.y =
        cfg.marginTop) ∧
    (∀ d p r u v, getRelationshipElements s elements = u ++ r :: v →
      d ∈ getDrawingElements s elements →
      p ∈ getDrawingElements s elements →
      (s r).connector1 = some p → (s r).connector2 = some d →
      (∀ r2 ∈ u ++ r :: v, (s r2).connector2 ≠ some p) →
      (∀ r2 ∈ u, (s r2).connector2 ≠ some d) →
      (∀ r2 ∈ v, (s r2).connector2 ≠ some d) →
      ((arrangeHierarchical canvas cfg s elements).1 d).position.y =
        cfg.marginTop + 150) := by
  constructor
  · intro d hd hroot
    unfold arrangeHierarchical
    dsimp only
    rw [if_neg (List.ne_nil_of_mem hd)]
    dsimp only
    rw [hierPlace_y _ _ _ _ _ s d hd]
    have hl0 : levelOf (hierLevelMap s (getDrawingElements s elements)
        (getRelationshipElements s elements)) d = 0 := by
      unfold levelOf
      rw [hierLevelMap_root s _ _ d hd hroot]
      rfl
    rw [hl0]
    simp
  · intro d p r u v hsplit hd hp hc1 hc2 hproot hu hv
    unfold arrangeHierarchical
    dsimp only
    rw [if_neg (List.ne_nil_of_mem hd)]
    dsimp only
    rw [hierPlace_y _ _ _ _ _ s d hd]
    have hl1 : levelOf (hierLevelMap s (getDrawingElements s elements)
        (getRelationshipElements s elements)) d = 1 := by
      unfold levelOf
      rw [hsplit, hierLevelMap_unique_child s _ u v r d p hc1 hc2 hp
        (hsplit ▸ hproot) hu hv]
      rfl
    rw [hl1]
    simp

/-- Counterexample to C4 as stated: in `cexStoreC4`, element 2 is a direct
child of the root 0 (via relationship 3), yet the hierarchical strategy
places it at `y = 350`, not `marginTop + 150 = 200`: relationship 5,
processed later, re-assigns it level 2. -/
theorem claim_C4_cex :
    (2 ∈ getDrawingElements cexStoreC4 cexElemsC4) ∧
    (3 ∈ getRelationshipElements cexStoreC4 cexElemsC4) ∧
    ((cexStoreC4 3).connector1 = some 0 ∧ (cexStoreC4 3).connector2 = some 2) ∧
    (∀ r ∈ getRelationshipElements cexStoreC4 cexElemsC4,
      (cexStoreC4 r).connector2 ≠ some 0) ∧
    ((arrangeHierarchical ⟨1920, 1080⟩ hierConfig cexStoreC4 cexElemsC4).1 2).position.y
      = 350 ∧
    (350 : ℚ) ≠ hierConfig.marginTop + 150 := by
  refine ⟨by decide, by decide, ⟨by decide, by decide⟩, by decide, ?_,
    by norm_num [hierConfig]⟩
  unfold arrangeHierarchical
  dsimp only
  rw [if_neg (by decide : ¬(getDrawingElements cexStoreC4 cexElemsC4 = []))]
  dsimp only
  rw [hierPlace_y _ _ _ _ _ cexStoreC4 2 (by decide)]
  have h2 : levelOf (hierLevelMap cexStoreC4
      (getDrawingElements cexStoreC4 cexElemsC4)
      (getRelationshipElements cexStoreC4 cexElemsC4)) 2 = 2 := by decide
  rw [h2]
  norm_num [hierConfig]

section SkipLemmas

variable {α : Type} [LinearOrderedField α] [FloorRing α]

theorem eqExceptPos_c1 {a b : ElemData α} (h : eqExceptPos a b) :
    a.connector1 = b.connector1 := h.2.2.2.2.2.2.1

theorem eqExceptPos_c2 {a b : ElemData α} (h : eqExceptPos a b) :
    a.connector2 = b.connector2 := h.2.2.2.2.2.2.2.1

/-- Removing a Relationship entry from the collection leaves the Drawing
list untouched. -/
theorem gde_middle (s : Store α) (l1 l2 : List (Option Nat)) (r : Nat)
    (hrel : (s r).etype = ElementType.Relationship) :
    getDrawingElements s (l1 ++ some r :: l2) =
      getDrawingElements s (l1 ++ l2) := by
  unfold getDrawingElements
  rw [List.filterMap_append, List.filterMap_append]
  congr 1
  rw [List.filterMap_cons_none]
  dsimp only
  rw [if_neg (by rw [hrel]; exact fun h => ElementType.noConfusion h)]

/-- Removing a Relationship entry removes exactly it from the Relationship
list. -/
theorem gre_middle (s : Store α) (l1 l2 : List (Option Nat)) (r : Nat)
    (hrel : (s r).etype = ElementType.Relationship) :
    getRelationshipElements s (l1 ++ some r :: l2) =
      getRelationshipElements s l1 ++ r :: getRelationshipElements s l2 := by
  unfold getRelationshipElements
  rw [List.filterMap_append]
  congr 1
  rw [List.filterMap_cons_some]
  dsimp only
  rw [if_pos hrel]

theorem gre_append (s : Store α) (l1 l2 : List (Option Nat)) :
    getRelationshipElements s (l1 ++ l2) =
      getRelationshipElements s l1 ++ getRelationshipElements s l2 := by
  unfold getRelationshipElements
  rw [List.filterMap_append]

/-- Dropping from a fold an element whose step is the identity. -/
theorem foldl_middle_id {β γ : Type} (f : γ → β → γ) (l1 l2 : List β) (b : β)
    (init : γ) (hb : ∀ x, f x b = x) :
    (l1 ++ b :: l2).foldl f init = (l1 ++ l2).foldl f init := by
  rw [List.foldl_append, List.foldl_append, List.foldl_cons, hb]

/-- A force iteration ignores a relationship whose endpoints are unset or
point outside the drawing list. -/
theorem forceIter_skip (sqrtF : α → α) (canvas : CanvasSize α)
    (cfg : LayoutConfig α) (drawings rels1 rels2 : List Nat) (r : Nat)
    (st : Store α)
    (hc : (st r).connector1 = none ∨ (st r).connector2 = none ∨
      (∀ p, (st r).connector1 = some p → p ∉ drawings) ∨
      (∀ q, (st r).connector2 = some q → q ∉ drawings)) :
    forceIter sqrtF canvas cfg drawings (rels1 ++ r :: rels2) st =
      forceIter sqrtF canvas cfg drawings (rels1 ++ rels2) st := by
  unfold forceIter
  dsimp only
  rw [foldl_middle_id]
  intro F
  rcases hc with h | h | h | h
  · rw [h]
  · cases hc1 : (st r).connector1 with
    | none => rfl
    | some p => rw [h]
  · cases hc1 : (st r).connector1 with
    | none => rfl
    | some p =>
      cases hc2 : (st r).connector2 with
      | none => rfl
      | some q =>
        dsimp only
        rw [if_neg (fun hand => h p hc1 hand.1)]
  · cases hc1 : (st r).connector1 with
    | none => rfl
    | some p =>
      cases hc2 : (st r).connector2 with
      | none => rfl
      | some q =>
        dsimp only
        rw [if_neg (fun hand => h q hc2 hand.2)]

/-- Two folds whose steps agree on states satisfying an invariant preserved
by the fold produce the same state. -/
theorem foldl_iter_congr {β : Type} (P : Store α → Prop)
    (f g : Store α → β → Store α) (l : List β)
    (hfg : ∀ st b, P st → f st b = g st b)
    (hP : ∀ st b, P st → P (f st b)) (st : Store α) (h : P st) :
    l.foldl f st = l.foldl g st := by
  induction l generalizing st with
  | nil => rfl
  | cons b rest ih =>
    rw [List.foldl_cons, List.foldl_cons, ← hfg st b h]
    exact ih (f st b) (hP st b h)

/-- Removing a skipped Relationship from the collection does not change
the result of the grid strategy. -/
theorem arrangeGrid_erase (canvas : CanvasSize α) (cfg : LayoutConfig α)
    (s : Store α) (l1 l2 : List (Option Nat)) (r : Nat)
    (hrel : (s r).etype = ElementType.Relationship) :
    arrangeGrid canvas cfg s (l1 ++ some r :: l2) =
      arrangeGrid canvas cfg s (l1 ++ l2) := by
  unfold arrangeGrid
  rw [gde_middle s l1 l2 r hrel]

/-- Removing a skipped Relationship from the collection does not change
the result of the circular strategy. -/
theorem arrangeCircular_erase (piV : α) (cosF sinF : α → α)
    (canvas : CanvasSize α) (cfg : LayoutConfig α)
    (s : Store α) (l1 l2 : List (Option Nat)) (r : Nat)
    (hrel : (s r).etype = ElementType.Relationship) :
    arrangeCircular piV cosF sinF canvas cfg s (l1 ++ some r :: l2) =
      arrangeCircular piV cosF sinF canvas cfg s (l1 ++ l2) := by
  unfold arrangeCircular
  rw [gde_middle s l1 l2 r hrel]

/-- Removing a Relationship with a null or dangling endpoint does not
change the result of the force strategy. -/
theorem arrangeForce_erase (piV : α) (cosF sinF sqrtF : α → α)
    (canvas : CanvasSize α) (cfg : LayoutConfig α)
    (s : Store α) (l1 l2 : List (Option Nat)) (r : Nat)
    (hrel : (s r).etype = ElementType.Relationship)
    (hskip : skippedRel s (getDrawingElements s (l1 ++ l2)) r) :
    arrangeForce piV cosF sinF sqrtF canvas cfg s (l1 ++ some r :: l2) =
      arrangeForce piV cosF sinF sqrtF canvas cfg s (l1 ++ l2) := by
  unfold arrangeForce
  rw [gde_middle s l1 l2 r hrel, gre_middle s l1 l2 r hrel, gre_append s l1 l2]
  dsimp only
  by_cases h : getDrawingElements s (l1 ++ l2) = []
  · rw [if_pos h, if_pos h]
  · rw [if_neg h, if_neg h]
    refine congrArg₂ Prod.mk ?_ rfl
    refine foldl_iter_congr
      (fun (st : Store α) => (st r).connector1 = (s r).connector1 ∧
        (st r).connector2 = (s r).connector2) _ _ _
      (fun st b hPst => ?_) (fun st b hPst => ?_) _ ?_
    · refine forceIter_skip sqrtF canvas cfg _ _ _ r st ?_
      rcases hskip with hk | hk | hk | hk
      · exact Or.inl (hPst.1.trans hk)
      · exact Or.inr (Or.inl (hPst.2.trans hk))
      · exact Or.inr (Or.inr (Or.inl
          (fun p hp => hk p (hPst.1.symm.trans hp))))
      · exact Or.inr (Or.inr (Or.inr
          (fun q hq => hk q (hPst.2.symm.trans hq))))
    · constructor
      · exact (eqExceptPos_c1 ((forceIter_frame sqrtF canvas cfg _ _ st).1 r)).symm.trans
          hPst.1
      · exact (eqExceptPos_c2 ((forceIter_frame sqrtF canvas cfg _ _ st).1 r)).symm.trans
          hPst.2
    · constructor
      · exact (eqExceptPos_c1
          ((forceSeed_frame piV cosF sinF _ _ _ s).1 r)).symm
      · exact (eqExceptPos_c2
          ((forceSeed_frame piV cosF sinF _ _ _ s).1 r)).symm

end SkipLemmas

/-- Claim C5 (amended): under the Grid, Force and Circular strategies, a
Relationship whose `connector1` or `connector2` is unset (null) or refers
to a Drawing element not present in the collection has no effect: removing
it from the collection changes neither the computed store nor the result,
and the engine never faults (every strategy is a total function).  Under
the Hierarchical strategy this fails — see the counterexample — because
such a relationship can still influence root detection and level
assignment. -/
theorem claim_C5 {α : Type} [LinearOrderedField α] [FloorRing α]
    (piV : α) (cosF sinF sqrtF : α → α) (canvas : CanvasSize α)
    (cfg : LayoutConfig α) (s : Store α) (l1 l2 : List (Option Nat)) (r : Nat)
    (hrel : (s r).etype = ElementType.Relationship)
    (hskip : skippedRel s (getDrawingElements s (l1 ++ l2)) r)
    (hstrat : cfg.strategy ≠ LayoutStrategy.Hierarchical) :
    arrangeElements piV cosF sinF sqrtF canvas cfg s (l1 ++ some r :: l2) =
      arrangeElements piV cosF sinF sqrtF canvas cfg s (l1 ++ l2) := by
  unfold arrangeElements
  cases hs : cfg.strategy
  · exact arrangeGrid_erase canvas cfg s l1 l2 r hrel
  · exact absurd hs hstrat
  · exact arrangeForce_erase piV cosF sinF sqrtF canvas cfg s l1 l2 r hrel hskip
  · exact arrangeCircular_erase piV cosF sinF canvas cfg s l1 l2 r hrel

/-- Counterexample to C5 as stated: under the Hierarchical strategy,
relationship 3 has a dangling `connector2` (drawing 5 is not in the
collection), yet removing it moves drawing 1 from `y = 350` to `y = 50`:
the dangling chain 0 -> 5 -> 1 deepens 1's level. -/
theorem claim_C5_cex :
    ((cexStoreC5 3).etype = ElementType.Relationship) ∧
    skippedRel cexStoreC5
      (getDrawingElements cexStoreC5 ([some 0, some 1] ++ [some 4])) 3 ∧
    (((arrangeElements (0 : ℚ) (fun _ => 0) (fun _ => 0) (fun _ => 0)
        ⟨1920, 1080⟩ hierConfig cexStoreC5
        ([some 0, some 1] ++ some 3 :: [some 4])).1 1).position.y = 350) ∧
    (((arrangeElements (0 : ℚ) (fun _ => 0) (fun _ => 0) (fun _ => 0)
        ⟨1920, 1080⟩ hierConfig cexStoreC5
        ([some 0, some 1] ++ [some 4])).1 1).position.y = 50) ∧
    (350 : ℚ) ≠ 50 := by
  refine ⟨by decide, ?_, ?_, ?_, by norm_num⟩
  · refine Or.inr (Or.inr (Or.inr (fun q hq => ?_)))
    have h5 : some 5 = some q := hq
    cases h5
    decide
  · show ((arrangeHierarchical ⟨1920, 1080⟩ hierConfig cexStoreC5
      ([some 0, some 1] ++ some 3 :: [some 4])).1 1).position.y = 350
    unfold arrangeHierarchical
    dsimp only
    rw [if_neg (by decide : ¬(getDrawingElements cexStoreC5
      ([some 0, some 1] ++ some 3 :: [some 4]) = []))]
    dsimp only
    rw [hierPlace_y _ _ _ _ _ cexStoreC5 1 (by decide)]
    have h2 : levelOf (hierLevelMap cexStoreC5
        (getDrawingElements cexStoreC5 ([some 0, some 1] ++ some 3 :: [some 4]))
        (getRelationshipElements cexStoreC5
          ([some 0, some 1] ++ some 3 :: [some 4]))) 1 = 2 := by decide
    rw [h2]
    norm_num [hierConfig]
  · show ((arrangeHierarchical ⟨1920, 1080⟩ hierConfig cexStoreC5
      ([some 0, some 1] ++ [some 4])).1 1).position.y = 50
    unfold arrangeHierarchical
    dsimp only
    rw [if_neg (by decide : ¬(getDrawingElements cexStoreC5
      ([some 0, some 1] ++ [some 4]) = []))]
    dsimp only
    rw [hierPlace_y _ _ _ _ _ cexStoreC5 1 (by decide)]
    have h2 : levelOf (hierLevelMap cexStoreC5
        (getDrawingElements cexStoreC5 ([some 0, some 1] ++ [some 4]))
        (getRelationshipElements cexStoreC5 ([some 0, some 1] ++ [some 4]))) 1
        = 0 := by decide
    rw [h2]
    norm_num [hierConfig]

/-- Witness for C5 at a concrete input: under the default Grid strategy,
removing the dangling relationship 3 leaves the run unchanged. -/
theorem claim_C5_witness :
    ((cexStoreC5 3).etype = ElementType.Relationship) ∧
    (hierConfig.strategy ≠ LayoutStrategy.Hierarchical →
      arrangeElements (0 : ℚ) (fun _ => 0) (fun _ => 0) (fun _ => 0)
        ⟨1920, 1080⟩ defaultConfig cexStoreC5
        ([some 0, some 1] ++ some 3 :: [some 4]) =
      arrangeElements (0 : ℚ) (fun _ => 0) (fun _ => 0) (fun _ => 0)
        ⟨1920, 1080⟩ defaultConfig cexStoreC5 ([some 0, some 1] ++ [some 4]))
    := by
  refine ⟨by decide, fun _ => ?_⟩
  refine claim_C5 (0 : ℚ) (fun _ => 0) (fun _ => 0) (fun _ => 0)
    ⟨1920, 1080⟩ defaultConfig cexStoreC5 [some 0, some 1] [some 4] 3
    (by decide) ?_ (by decide)
  refine Or.inr (Or.inr (Or.inr (fun q hq => ?_)))
  have h5 : some 5 = some q := hq
  cases h5
  decide

/-- Witness for C4 at a concrete input: in `hierWitStore`, the root 0 is
placed at `y = marginTop` and its only child 1 at `y = marginTop + 150`. -/
theorem claim_C4_witness :
    ((arrangeHierarchical ⟨1920, 1080⟩ hierConfig hierWitStore hierWitElems).1 0).position.y
      = hierConfig.marginTop ∧
    ((arrangeHierarchical ⟨1920, 1080⟩ hierConfig hierWitStore hierWitElems).1 1).position.y
      = hierConfig.marginTop + 150 :=
  ⟨(claim_C4 ⟨1920, 1080⟩ hierConfig hierWitStore hierWitElems).1 0
     (by decide) (by decide),
   (claim_C4 ⟨1920, 1080⟩ hierConfig hierWitStore hierWitElems).2 1 0 2 [] []
     (by decide) (by decide) (by decide) (by decide) (by decide)
     (by decide) (by decide) (by decide)⟩

section GridLemmas

variable {α : Type} [LinearOrderedField α] [FloorRing α]

/-- Behind `max 1`, C++ truncation toward zero agrees with the
mathematical floor: they differ only on negative non-integer inputs, where
both are at most 0 and the `max` wins. -/
theorem max_one_truncToInt (q : α) :
    max 1 (truncToInt q) = max 1 ⌊q⌋ := by
  unfold truncToInt
  split
  · rfl
  · next h =>
    have hq : q < 0 := lt_of_not_le h
    have h1 : -⌊-q⌋ = ⌈q⌉ := by
      rw [Int.floor_neg, neg_neg]
    rw [h1]
    have hc0 : ⌈q⌉ ≤ 0 := Int.ceil_le.mpr (by exact_mod_cast le_of_lt hq)
    have h2 : ⌈q⌉ ≤ 1 := le_trans hc0 zero_le_one
    have h3 : ⌊q⌋ ≤ 1 := le_trans (le_trans (Int.floor_le_ceil q) hc0) zero_le_one
    rw [max_eq_left h2, max_eq_left h3]

theorem getD_ne_of_nodup (l : List Nat) (hno : l.Nodup) (i j : ℕ)
    (hi : i < l.length) (hj : j < l.length) (hij : i ≠ j) :
    l.getD i 0 ≠ l.getD j 0 := by
  rw [getD_eq_get _ _ hi, getD_eq_get _ _ hj]
  intro hc
  have := (List.Nodup.get_inj_iff hno).mp hc
  exact hij (by simpa using this)

theorem div_mod_char (k r n : ℕ) (h1 : r * n ≤ k) (h2 : k < (r + 1) * n) :
    k / n = r ∧ k % n = k - r * n := by
  have hn : 0 < n := by
    rcases Nat.eq_zero_or_pos n with h | h
    · subst h
      omega
    · exact h
  have hk : k = n * r + (k - r * n) := by
    rw [Nat.mul_comm]
    omega
  have hm : k - r * n < n := by
    have : (r + 1) * n = r * n + n := by ring
    omega
  constructor
  · rw [hk, Nat.mul_add_div hn, Nat.div_eq_of_lt hm, Nat.add_zero]
  · rw [hk, Nat.mul_add_mod, Nat.mod_eq_of_lt hm]
    omega

/-- `count <= ceil(count / b) * b` for a positive integer divisor. -/
theorem count_le_ceil_mul (count : ℕ) (b : ℤ) (hb : 1 ≤ b) :
    (count : ℤ) ≤ ⌈(count : α) / ((b : ℤ) : α)⌉ * b := by
  have hb0 : (0 : α) < ((b : ℤ) : α) := by
    have : (0 : ℤ) < b := lt_of_lt_of_le zero_lt_one hb
    exact_mod_cast this
  have h1 : (count : α) / ((b : ℤ) : α) ≤ ((⌈(count : α) / ((b : ℤ) : α)⌉ : ℤ) : α) :=
    Int.le_ceil _
  have h2 : (count : α) ≤ ((⌈(count : α) / ((b : ℤ) : α)⌉ : ℤ) : α) * ((b : ℤ) : α) :=
    (div_le_iff hb0).mp h1
  exact_mod_cast h2

theorem ceil_count_pos (count : ℕ) (b : ℤ) (hb : 1 ≤ b) (hc : 0 < count) :
    1 ≤ ⌈(count : α) / ((b : ℤ) : α)⌉ := by
  have hb0 : (0 : α) < ((b : ℤ) : α) := by
    have : (0 : ℤ) < b := lt_of_lt_of_le zero_lt_one hb
    exact_mod_cast this
  have hc0 : (0 : α) < (count : α) := by exact_mod_cast hc
  exact Int.ceil_pos.mpr (div_pos hc0 hb0)

theorem nat_le_toNat_mul (count : ℕ) (a b : ℤ) (ha : 0 ≤ a) (hb : 0 ≤ b)
    (h : (count : ℤ) ≤ a * b) : count ≤ a.toNat * b.toNat := by
  have h2 : (count : ℤ) ≤ ((a.toNat : ℤ)) * ((b.toNat : ℤ)) := by
    rw [Int.toNat_of_nonneg ha, Int.toNat_of_nonneg hb]
    exact h
  exact_mod_cast h2

theorem gridRow_succ (drawings : List Nat) (count : ℕ) (mL mT cw ch : α)
    (c : ℕ) (st : Store α × ℕ) (row : ℕ) :
    gridRow drawings count mL mT cw ch (c + 1) st row =
      (if (gridRow drawings count mL mT cw ch c st row).2 < count then
        (setPos (gridRow drawings count mL mT cw ch c st row).1
          (drawings.getD (gridRow drawings count mL mT cw ch c st row).2 0)
          ⟨mL + (c : α) * cw, mT + (row : α) * ch⟩,
         (gridRow drawings count mL mT cw ch c st row).2 + 1)
      else gridRow drawings count mL mT cw ch c st row) := by
  unfold gridRow
  rw [range_foldl_succ]

/-- Full characterization of one grid row pass starting at element index
`i0`: the index advances to `min count (i0 + colsN)`, elements outside the
written window are untouched, and element `k` of the window is placed in
column `k - i0` of this row. -/
theorem gridRow_spec (drawings : List Nat) (count : ℕ) (mL mT cw ch : α)
    (row : ℕ) (hcount : count ≤ drawings.length) (hno : drawings.Nodup)
    (c : ℕ) :
    ∀ (s0 : Store α) (i0 : ℕ), i0 ≤ count →
    ((gridRow drawings count mL mT cw ch c (s0, i0) row).2 =
      min count (i0 + c)) ∧
    (∀ id : Nat, (∀ k, i0 ≤ k → k < min count (i0 + c) →
        drawings.getD k 0 ≠ id) →
      (gridRow drawings count mL mT cw ch c (s0, i0) row).1 id = s0 id) ∧
    (∀ k, i0 ≤ k → k < min count (i0 + c) →
      ((gridRow drawings count mL mT cw ch c (s0, i0) row).1
        (drawings.getD k 0)).position =
        ⟨mL + ((k - i0 : ℕ) : α) * cw, mT + (row : α) * ch⟩) := by
  induction c with
  | zero =>
    intro s0 i0 hi0
    refine ⟨by unfold gridRow; simp [Nat.min_eq_right hi0], fun id _ => rfl,
      fun k hk1 hk2 => ?_⟩
    rw [Nat.add_zero, Nat.min_eq_right hi0] at hk2
    omega
  | succ c ih =>
    intro s0 i0 hi0
    obtain ⟨hidx, hun, hpos⟩ := ih s0 i0 hi0
    rw [gridRow_succ, hidx]
    by_cases hlt : i0 + c < count
    · have hmin : min count (i0 + c) = i0 + c := Nat.min_eq_right (le_of_lt hlt)
      rw [hmin, if_pos hlt]
      refine ⟨?_, ?_, ?_⟩
      · dsimp only
        omega
      · intro id hid
        dsimp only
        have hne1 : drawings.getD (i0 + c) 0 ≠ id :=
          hid (i0 + c) (by omega) (by omega)
        rw [setPos_ne _ _ _ (fun hc2 => hne1 hc2.symm)]
        exact hun id (fun k hk1 hk2 => hid k hk1 (by omega))
      · intro k hk1 hk2
        dsimp only
        by_cases hkc : k = i0 + c
        · subst hkc
          rw [setPos_position]
          rw [show i0 + c - i0 = c from by omega]
        · rw [setPos_ne _ _ _ (getD_ne_of_nodup drawings hno k (i0 + c)
            (by omega) (by omega) hkc)]
          exact hpos k hk1 (by omega)
    · have hmin : min count (i0 + c) = count := by omega
      rw [hmin, if_neg (lt_irrefl count)]
      refine ⟨?_, ?_, ?_⟩
      · rw [hidx]
        omega
      · intro id hid
        exact hun id (fun k hk1 hk2 => hid k hk1 (by omega))
      · intro k hk1 hk2
        exact hpos k hk1 (by omega)

/-- Full characterization of the grid placement double loop: element `k`
(for `k < min count (rowsN * colsN)`) is placed row-major at
`(row, col) = (k / colsN, k % colsN)`. -/
theorem gridPlace_spec (drawings : List Nat) (count : ℕ) (mL mT cw ch : α)
    (hcount : count ≤ drawings.length) (hno : drawings.Nodup) (colsN : ℕ) :
    ∀ (rowsN : ℕ) (s : Store α),
    ((gridPlace drawings count rowsN colsN mL mT cw ch s).2 =
      min count (rowsN * colsN)) ∧
    (∀ k, k < min count (rowsN * colsN) →
      ((gridPlace drawings count rowsN colsN mL mT cw ch s).1
        (drawings.getD k 0)).position =
        ⟨mL + ((k % colsN : ℕ) : α) * cw, mT + ((k / colsN : ℕ) : α) * ch⟩) := by
  intro rowsN
  induction rowsN with
  | zero =>
    intro s
    refine ⟨by unfold gridPlace; simp, fun k hk => ?_⟩
    rw [Nat.zero_mul, Nat.min_eq_right (Nat.zero_le count)] at hk
    omega
  | succ r ih =>
    intro s
    obtain ⟨hidx, hpos⟩ := ih s
    have hstep : gridPlace drawings count (r + 1) colsN mL mT cw ch s =
        gridRow drawings count mL mT cw ch colsN
          (gridPlace drawings count r colsN mL mT cw ch s) r := by
      unfold gridPlace
      rw [range_foldl_succ]
    rcases hG : gridPlace drawings count r colsN mL mT cw ch s with ⟨s1, i1⟩
    rw [hG] at hstep hidx hpos
    dsimp only at hidx hpos
    have hi1le : i1 ≤ count := by omega
    obtain ⟨hridx, hrun, hrpos⟩ :=
      gridRow_spec drawings count mL mT cw ch r hcount hno colsN s1 i1 hi1le
    have hmul : (r + 1) * colsN = r * colsN + colsN := by ring
    constructor
    · rw [hstep, hridx, hidx]
      omega
    · intro k hk
      rw [hstep]
      by_cases hkold : k < min count (r * colsN)
      · rw [hrun (drawings.getD k 0) (fun k2 hk21 hk22 => ?_)]
        · exact hpos k hkold
        · refine getD_ne_of_nodup drawings hno k2 k (by omega) (by omega) ?_
          rw [hidx] at hk21
          omega
      · have hge : i1 ≤ k := by
          rw [hidx]
          omega
        have hklt : k < min count (i1 + colsN) := by
          rw [hidx]
          omega
        rw [hrpos k hge hklt]
        have hr1 : r * colsN ≤ k := by
          rw [hidx] at hge
          omega
        have hr2 : k < (r + 1) * colsN := by omega
        obtain ⟨hdm1, hdm2⟩ := div_mod_char k r colsN hr1 hr2
        rw [hdm1, hdm2, hidx]
        rw [show min count (r * colsN) = r * colsN from by omega]

end GridLemmas

section GridClaim

variable {α : Type} [LinearOrderedField α] [FloorRing α]

/-- The code's truncation-based cell formula agrees with the claim's
floor-based one. -/
theorem gridCodePos_eq_gridSpecPos (canvas : CanvasSize α)
    (cfg : LayoutConfig α) (s : Store α) (elements : List (Option Nat))
    (i : ℕ) :
    gridCodePos canvas cfg s elements i = gridSpecPos canvas cfg s elements i := by
  unfold gridCodePos gridSpecPos
  simp only [max_one_truncToInt]

/-- Positions computed by `arrangeGrid` follow the code-side cell
formula. -/
theorem arrangeGrid_pos (canvas : CanvasSize α) (cfg : LayoutConfig α)
    (s : Store α) (elements : List (Option Nat))
    (hno : (getDrawingElements s elements).Nodup)
    (hne : getDrawingElements s elements ≠ [])
    (i : ℕ) (hi : i < (getDrawingElements s elements).length) :
    ((arrangeGrid canvas cfg s elements).1
      ((getDrawingElements s elements).getD i 0)).position =
      gridCodePos canvas cfg s elements i := by
  have hcpos : 0 < (getDrawingElements s elements).length :=
    List.length_pos.mpr hne
  unfold arrangeGrid
  dsimp only
  rw [if_neg hne]
  dsimp only
  unfold gridCodePos
  dsimp only
  refine (gridPlace_spec (getDrawingElements s elements)
    (getDrawingElements s elements).length _ _ _ _ (le_refl _) hno _ _ s).2 i ?_
  refine lt_of_lt_of_le hi (le_min (le_refl _) ?_)
  split
  · dsimp only
    refine nat_le_toNat_mul _ _ _
      (le_trans zero_le_one (le_max_left 1 _))
      (le_of_lt (lt_of_lt_of_le zero_lt_one
        (ceil_count_pos _ _ (le_max_left 1 _) hcpos))) ?_
    rw [mul_comm]
    exact count_le_ceil_mul _ _ (le_max_left 1 _)
  · dsimp only
    refine nat_le_toNat_mul _ _ _
      (le_of_lt (lt_of_lt_of_le zero_lt_one
        (ceil_count_pos _ _ (le_max_left 1 _) hcpos)))
      (le_trans zero_le_one (le_max_left 1 _)) ?_
    exact count_le_ceil_mul _ _ (le_max_left 1 _)

end GridClaim

/-- Claim C1: for a non-empty Drawing subset (of pairwise distinct
elements), the grid strategy places element `i` (in input order) row-major
at `(marginLeft + (i mod cols) * cellWidth, marginTop + (i div cols) *
cellHeight)` with `cellWidth = maxWidth + padding`, `cellHeight =
maxHeight + padding`, `cols = max(1, floor(availableWidth / cellWidth))`,
`rows = ceil(count / cols)`, recomputed as `rows = max(1,
floor(availableHeight / cellHeight))` and `cols = ceil(count / rows)` when
`rows * cellHeight` exceeds `availableHeight`; and the result is
`success = true`, `elementsArranged = count`, `totalArea = availableWidth *
availableHeight` (the concrete 5-box 1600x900 scenario is the witness). -/
theorem claim_C1 {α : Type} [LinearOrderedField α] [FloorRing α]
    (canvas : CanvasSize α) (cfg : LayoutConfig α) (s : Store α)
    (elements : List (Option Nat))
    (hno : (getDrawingElements s elements).Nodup)
    (hne : getDrawingElements s elements ≠ []) :
    ((arrangeGrid canvas cfg s elements).2 =
      { success := true, errorMessage := "",
        elementsArranged := ((getDrawingElements s elements).length : ℤ),
        totalArea := (canvas.width - cfg.marginLeft - cfg.marginRight) *
          (canvas.height - cfg.marginTop - cfg.marginBottom) }) ∧
    (∀ i, i < (getDrawingElements s elements).length →
      ((arrangeGrid canvas cfg s elements).1
        ((getDrawingElements s elements).getD i 0)).position =
        gridSpecPos canvas cfg s elements i) := by
  constructor
  · unfold arrangeGrid
    dsimp only
    rw [if_neg hne]
  · intro i hi
    rw [arrangeGrid_pos canvas cfg s elements hno hne i hi]
    exact gridCodePos_eq_gridSpecPos canvas cfg s elements i

/-- Witness for C1: the concrete scenario — 5 boxes of 120x80 plus 4
connectors on a 1600x900 canvas, padding 30, margins 50 — places the five
boxes in one row at x = 50, 200, 350, 500, 650 and y = 50, with
`elementsArranged = 5`. -/
theorem claim_C1_witness :
    (getDrawingElements gridStore gridElems).Nodup ∧
    getDrawingElements gridStore gridElems ≠ [] ∧
    (arrangeGrid ⟨1600, 900⟩ gridConfig gridStore gridElems).2 =
      { success := true, errorMessage := "", elementsArranged := 5,
        totalArea := 1500 * 800 } ∧
    ((arrangeGrid ⟨1600, 900⟩ gridConfig gridStore gridElems).1 0).position = ⟨50, 50⟩ ∧
    ((arrangeGrid ⟨1600, 900⟩ gridConfig gridStore gridElems).1 1).position = ⟨200, 50⟩ ∧
    ((arrangeGrid ⟨1600, 900⟩ gridConfig gridStore gridElems).1 2).position = ⟨350, 50⟩ ∧
    ((arrangeGrid ⟨1600, 900⟩ gridConfig gridStore gridElems).1 3).position = ⟨500, 50⟩ ∧
    ((arrangeGrid ⟨1600, 900⟩ gridConfig gridStore gridElems).1 4).position = ⟨650, 50⟩ := by
  have hno : (getDrawingElements gridStore gridElems).Nodup := by decide
  have hne : getDrawingElements gridStore gridElems ≠ [] := by decide
  have hC := claim_C1 ⟨1600, 900⟩ gridConfig gridStore gridElems hno hne
  have hd : getDrawingElements gridStore gridElems = [0, 1, 2, 3, 4] := by decide
  have hgs : ∀ i : ℕ, i < 5 →
      gridSpecPos ⟨1600, 900⟩ gridConfig gridStore gridElems i =
        ⟨50 + (i : ℚ) * 150, 50⟩ := by
    intro i hi5
    unfold gridSpecPos
    rw [hd]
    norm_num [gridConfig, gridStore, max_def]
    have hc1 : ⌈(1 : ℚ) / 2⌉ = 1 := by
      rw [Int.ceil_eq_iff]
      norm_num
    rw [hc1]
    have h10 : Int.toNat 10 = 10 := rfl
    norm_num [h10]
    omega
  have hlen : (getDrawingElements gridStore gridElems).length = 5 := by decide
  refine ⟨hno, hne, ?_, ?_, ?_, ?_, ?_, ?_⟩
  · rw [hC.1, hd]
    norm_num [gridConfig]
  · exact (hC.2 0 (by rw [hlen]; omega)).trans (by rw [hgs 0 (by omega)]; norm_num)
  · exact (hC.2 1 (by rw [hlen]; omega)).trans (by rw [hgs 1 (by omega)]; norm_num)
  · exact (hC.2 2 (by rw [hlen]; omega)).trans (by rw [hgs 2 (by omega)]; norm_num)
  · exact (hC.2 3 (by rw [hlen]; omega)).trans (by rw [hgs 3 (by omega)]; norm_num)
  · exact (hC.2 4 (by rw [hlen]; omega)).trans (by rw [hgs 4 (by omega)]; norm_num)

section ForceBounds

variable {α : Type} [LinearOrderedField α] [FloorRing α]

/-- Projection of the frame relation onto the size field. -/
theorem eqExceptPos_size {a b : ElemData α} (h : eqExceptPos a b) :
    a.size = b.size :=
  h.2.2.2.2.2.2.2.2

/-- Clamping into an empty interval returns the lower bound. -/
theorem clamp_const (X lo hi : α) (h : hi ≤ lo) : max lo (min X hi) = lo :=
  max_eq_left (le_trans (min_le_right _ _) h)

/-- Overwriting the same element's position twice keeps only the second
write. -/
theorem setPos_setPos (s : Store α) (i : Nat) (p q : Position α) :
    setPos (setPos s i p) i q = setPos s i q := by
  funext j
  unfold setPos
  by_cases hj : j = i
  · simp [hj]
  · simp [hj]

/-- One force iteration leaves every drawing of the list inside the
per-axis clamping interval, measured with the sizes of the incoming store,
provided each interval is nonempty (the margins leave room for the
element). -/
theorem forceIter_bounds (sqrtF : α → α) (canvas : CanvasSize α)
    (cfg : LayoutConfig α) (drawings rels : List Nat) (st : Store α)
    (hall : ∀ d ∈ drawings,
      cfg.marginLeft ≤ canvas.width - cfg.marginRight - (st d).size.width ∧
      cfg.marginTop ≤ canvas.height - cfg.marginBottom - (st d).size.height) :
    ∀ d ∈ drawings,
      cfg.marginLeft ≤ ((forceIter sqrtF canvas cfg drawings rels st) d).position.x ∧
      ((forceIter sqrtF canvas cfg drawings rels st) d).position.x ≤
        canvas.width - cfg.marginRight - (st d).size.width ∧
      cfg.marginTop ≤ ((forceIter sqrtF canvas cfg drawings rels st) d).position.y ∧
      ((forceIter sqrtF canvas cfg drawings rels st) d).position.y ≤
        canvas.height - cfg.marginBottom - (st d).size.height := by
  intro d hd
  obtain ⟨i0, hi0, hgd⟩ := exists_getD_of_mem drawings d hd
  unfold forceIter
  refine writeFold_pos_bound _ _ st _
    (fun d2 p =>
      cfg.marginLeft ≤ p.x ∧
      p.x ≤ canvas.width - cfg.marginRight - (st d2).size.width ∧
      cfg.marginTop ≤ p.y ∧
      p.y ≤ canvas.height - cfg.marginBottom - (st d2).size.height)
    (fun st2 hst2 i hilt => ?_) d ⟨i0, hi0, hgd⟩
  have hmem := getD_mem_of_lt drawings i hilt
  have hsz := eqExceptPos_size (hst2 (drawings.getD i 0))
  obtain ⟨hx, hy⟩ := hall _ hmem
  dsimp only
  rw [← hsz]
  exact ⟨le_max_left _ _, max_le hx (min_le_right _ _),
    le_max_left _ _, max_le hy (min_le_right _ _)⟩

/-- The force strategy keeps every drawing inside the margin box whenever
each drawing fits: the seeding is followed by 50 iterations and the last
iteration clamps both axes. -/
theorem arrangeForce_bounds (piV : α) (cosF sinF sqrtF : α → α)
    (canvas : CanvasSize α) (cfg : LayoutConfig α) (s : Store α)
    (elements : List (Option Nat))
    (hall : ∀ d ∈ getDrawingElements s elements,
      cfg.marginLeft ≤ canvas.width - cfg.marginRight - (s d).size.width ∧
      cfg.marginTop ≤ canvas.height - cfg.marginBottom - (s d).size.height) :
    ∀ d ∈ getDrawingElements s elements,
      cfg.marginLeft ≤
        ((arrangeForce piV cosF sinF sqrtF canvas cfg s elements).1 d).position.x ∧
      ((arrangeForce piV cosF sinF sqrtF canvas cfg s elements).1 d).position.x ≤
        canvas.width - cfg.marginRight - (s d).size.width ∧
      cfg.marginTop ≤
        ((arrangeForce piV cosF sinF sqrtF canvas cfg s elements).1 d).position.y ∧
      ((arrangeForce piV cosF sinF sqrtF canvas cfg s elements).1 d).position.y ≤
        canvas.height - cfg.marginBottom - (s d).size.height := by
  intro d hd
  have hne : getDrawingElements s elements ≠ [] := by
    intro hc
    rw [hc] at hd
    exact List.not_mem_nil d hd
  unfold arrangeForce
  rw [if_neg hne]
  dsimp only
  have h50 : (50 : ℕ) = 49 + 1 := rfl
  rw [h50, range_foldl_succ]
  have hframe : ∀ j, eqExceptPos (s j)
      (((List.range 49).foldl
        (fun st _ => forceIter sqrtF canvas cfg (getDrawingElements s elements)
          (getRelationshipElements s elements) st)
        (forceSeed piV cosF sinF (canvas.width / 2) (canvas.height / 2)
          (getDrawingElements s elements) s)) j) := by
    intro j
    refine foldl_pred (fun (s2 : Store α) => eqExceptPos (s j) (s2 j)) _ _
      (fun s2 i _ hs2 =>
        eqExceptPos_trans hs2 ((forceIter_frame _ _ _ _ _ _).1 j)) _
      ((forceSeed_frame _ _ _ _ _ _ _).1 j)
  have hall2 : ∀ d2 ∈ getDrawingElements s elements,
      cfg.marginLeft ≤ canvas.width - cfg.marginRight -
        (((List.range 49).foldl
          (fun st _ => forceIter sqrtF canvas cfg (getDrawingElements s elements)
            (getRelationshipElements s elements) st)
          (forceSeed piV cosF sinF (canvas.width / 2) (canvas.height / 2)
            (getDrawingElements s elements) s)) d2).size.width ∧
      cfg.marginTop ≤ canvas.height - cfg.marginBottom -
        (((List.range 49).foldl
          (fun st _ => forceIter sqrtF canvas cfg (getDrawingElements s elements)
            (getRelationshipElements s elements) st)
          (forceSeed piV cosF sinF (canvas.width / 2) (canvas.height / 2)
            (getDrawingElements s elements) s)) d2).size.height := by
    intro d2 hd2
    rw [← eqExceptPos_size (hframe d2)]
    exact hall d2 hd2
  have hres := forceIter_bounds sqrtF canvas cfg (getDrawingElements s elements)
    (getRelationshipElements s elements) _ hall2 d hd
  rw [← eqExceptPos_size (hframe d)] at hres
  exact hres

end ForceBounds

/-- Claim C3 (amended with the fitting proviso): under the Force strategy,
whenever every Drawing element of the collection fits its clamping
intervals (marginLeft at most canvasWidth - marginRight - width, and
likewise vertically), every Drawing element of the collection ends with
marginLeft at most x at most canvasWidth - marginRight - width and
marginTop at most y at most canvasHeight - marginBottom - height.  Stated
over the reals with the genuine trigonometry and square root; the
unconditional claim is refuted by the counterexample, where an element
wider than the canvas makes the interval empty and the clamp's lower
bound wins. -/
theorem claim_C3 (canvas : CanvasSize ℝ) (cfg : LayoutConfig ℝ) (s : Store ℝ)
    (elements : List (Option Nat))
    (hstrat : cfg.strategy = LayoutStrategy.Force)
    (hall : ∀ d ∈ getDrawingElements s elements,
      cfg.marginLeft ≤ canvas.width - cfg.marginRight - (s d).size.width ∧
      cfg.marginTop ≤ canvas.height - cfg.marginBottom - (s d).size.height) :
    ∀ d ∈ getDrawingElements s elements,
      cfg.marginLeft ≤ ((arrangeElementsR canvas cfg s elements).1 d).position.x ∧
      ((arrangeElementsR canvas cfg s elements).1 d).position.x ≤
        canvas.width - cfg.marginRight - (s d).size.width ∧
      cfg.marginTop ≤ ((arrangeElementsR canvas cfg s elements).1 d).position.y ∧
      ((arrangeElementsR canvas cfg s elements).1 d).position.y ≤
        canvas.height - cfg.marginBottom - (s d).size.height := by
  unfold arrangeElementsR arrangeElements
  rw [hstrat]
  exact arrangeForce_bounds Real.pi Real.cos Real.sin Real.sqrt
    canvas cfg s elements hall

/-- One force iteration on the single oversized drawing: both clamping
intervals are empty, so the element is pinned to the margin corner
regardless of where it was. -/
theorem forceIter_wide (st : Store ℝ) (hsz : (st 0).size = ⟨2000, 60⟩) :
    forceIter Real.sqrt ⟨100, 100⟩ forceCfgR [0] [] st =
      setPos st 0 ⟨50, 50⟩ := by
  unfold forceIter
  have hlen : ([0] : List Nat).length = 1 := rfl
  have hr1 : List.range 1 = [0] := rfl
  have hgd0 : ([0] : List Nat).getD 0 0 = 0 := rfl
  have hdrop : ([0] : List Nat).drop (0 + 1) = [] := rfl
  simp only [hlen, hr1, List.foldl_cons, List.foldl_nil, hdrop, hgd0]
  rw [hsz]
  dsimp only [forceCfgR]
  rw [zero_mul, add_zero, add_zero]
  rw [clamp_const ((st 0).position.x) 50 (100 - 50 - 2000) (by norm_num),
    clamp_const ((st 0).position.y) 50 (100 - 50 - 60) (by norm_num)]

/-- On the single oversized drawing the 50-iteration fold reaches the
clamped corner after its first iteration and stays there. -/
theorem foldl_forceIter_wide (s0 : Store ℝ) (hsz : (s0 0).size = ⟨2000, 60⟩)
    (n : ℕ) (hn : 1 ≤ n) :
    (List.range n).foldl
      (fun st _ => forceIter Real.sqrt ⟨100, 100⟩ forceCfgR [0] [] st) s0 =
      setPos s0 0 ⟨50, 50⟩ := by
  induction n with
  | zero => omega
  | succ m ih =>
    rw [range_foldl_succ]
    by_cases hm : m = 0
    · subst hm
      dsimp only [List.range_zero, List.foldl_nil]
      exact forceIter_wide s0 hsz
    · rw [ih (by omega)]
      have hsz2 : ((setPos s0 0 ⟨50, 50⟩) 0).size = ⟨2000, 60⟩ := by
        rw [setPos_self]
        exact hsz
      rw [forceIter_wide _ hsz2, setPos_setPos]

/-- Counterexample to the unconditional reading of C3: a single
2000-wide drawing on a 100x100 canvas with margins 50 ends at x = 50,
while the claimed upper bound canvasWidth - marginRight - width equals
-1950, so the bound fails. -/
theorem claim_C3_cex :
    getDrawingElements wideStoreR [some 0] = [0] ∧
    ((arrangeElementsR ⟨100, 100⟩ forceCfgR wideStoreR [some 0]).1 0).position.x = 50 ∧
    ¬ (((arrangeElementsR ⟨100, 100⟩ forceCfgR wideStoreR [some 0]).1 0).position.x ≤
        (100 : ℝ) - forceCfgR.marginRight - (wideStoreR 0).size.width) := by
  have hgd : getDrawingElements wideStoreR [some 0] = [0] := rfl
  have hre : getRelationshipElements wideStoreR [some 0] = [] := rfl
  have hxeq :
      ((arrangeElementsR ⟨100, 100⟩ forceCfgR wideStoreR [some 0]).1 0).position.x
        = 50 := by
    unfold arrangeElementsR arrangeElements
    have hstrat : forceCfgR.strategy = LayoutStrategy.Force := rfl
    rw [hstrat]
    unfold arrangeForce
    rw [hgd, hre]
    rw [if_neg (List.cons_ne_nil 0 [])]
    dsimp only
    have hsz0 : ((forceSeed Real.pi Real.cos Real.sin ((100 : ℝ) / 2)
        ((100 : ℝ) / 2) [0] wideStoreR) 0).size = ⟨2000, 60⟩ :=
      (eqExceptPos_size ((forceSeed_frame Real.pi Real.cos Real.sin
        ((100 : ℝ) / 2) ((100 : ℝ) / 2) [0] wideStoreR).1 0)).symm
    rw [foldl_forceIter_wide _ hsz0 50 (by omega)]
    rw [setPos_position]
  refine ⟨hgd, hxeq, ?_⟩
  rw [hxeq]
  show ¬ ((50 : ℝ) ≤ 100 - forceCfgR.marginRight - (wideStoreR 0).size.width)
  have hmr : forceCfgR.marginRight = 50 := rfl
  have hw : (wideStoreR 0).size.width = 2000 := rfl
  rw [hmr, hw]
  norm_num

/-- Witness for C3: a single 100x60 drawing on a 1920x1080 canvas with
margins 50 satisfies the fitting proviso, and its final position obeys
both clamping intervals. -/
theorem claim_C3_witness :
    forceCfgR.strategy = LayoutStrategy.Force ∧
    (∀ d ∈ getDrawingElements fitStoreR [some 0],
      forceCfgR.marginLeft ≤
        (1920 : ℝ) - forceCfgR.marginRight - (fitStoreR d).size.width ∧
      forceCfgR.marginTop ≤
        (1080 : ℝ) - forceCfgR.marginBottom - (fitStoreR d).size.height) ∧
    (∀ d ∈ getDrawingElements fitStoreR [some 0],
      forceCfgR.marginLeft ≤
        ((arrangeElementsR ⟨1920, 1080⟩ forceCfgR fitStoreR [some 0]).1 d).position.x ∧
      ((arrangeElementsR ⟨1920, 1080⟩ forceCfgR fitStoreR [some 0]).1 d).position.x ≤
        (1920 : ℝ) - forceCfgR.marginRight - (fitStoreR d).size.width ∧
      forceCfgR.marginTop ≤
        ((arrangeElementsR ⟨1920, 1080⟩ forceCfgR fitStoreR [some 0]).1 d).position.y ∧
      ((arrangeElementsR ⟨1920, 1080⟩ forceCfgR fitStoreR [some 0]).1 d).position.y ≤
        (1080 : ℝ) - forceCfgR.marginBottom - (fitStoreR d).size.height) := by
  have hall : ∀ d ∈ getDrawingElements fitStoreR [some 0],
      forceCfgR.marginLeft ≤
        (1920 : ℝ) - forceCfgR.marginRight - (fitStoreR d).size.width ∧
      forceCfgR.marginTop ≤
        (1080 : ℝ) - forceCfgR.marginBottom - (fitStoreR d).size.height := by
    intro d _
    have h1 : forceCfgR.marginLeft = 50 := rfl
    have h2 : forceCfgR.marginRight = 50 := rfl
    have h3 : forceCfgR.marginTop = 50 := rfl
    have h4 : forceCfgR.marginBottom = 50 := rfl
    have h5 : (fitStoreR d).size.width = 100 := rfl
    have h6 : (fitStoreR d).size.height = 60 := rfl
    rw [h1, h2, h3, h4, h5, h6]
    constructor <;> norm_num
  exact ⟨rfl, hall,
    claim_C3 ⟨1920, 1080⟩ forceCfgR fitStoreR [some 0] rfl hall⟩

section CircLemmas

variable {α : Type} [LinearOrderedField α] [FloorRing α]

/-- Final position of element `i` under the circular placement loop:
its own write at index `i` is the last write to it (the list has no
duplicates), and only its own size enters the offset. -/
theorem circPlace_pos (piV : α) (cosF sinF : α → α) (cX cY r : α)
    (drawings : List Nat) (s : Store α) (hno : drawings.Nodup)
    (i : ℕ) (hi : i < drawings.length) :
    ((circPlace piV cosF sinF cX cY r drawings s) (drawings.getD i 0)).position =
      ⟨cX + r * cosF ((2 * piV * (i : α)) / (drawings.length : α)) -
        (s (drawings.getD i 0)).size.width / 2,
       cY + r * sinF ((2 * piV * (i : α)) / (drawings.length : α)) -
        (s (drawings.getD i 0)).size.height / 2⟩ := by
  unfold circPlace
  refine writeFold_last_write _ _ s _
    (fun i2 => ⟨cX + r * cosF ((2 * piV * (i2 : α)) / (drawings.length : α)) -
        (s (drawings.getD i2 0)).size.width / 2,
      cY + r * sinF ((2 * piV * (i2 : α)) / (drawings.length : α)) -
        (s (drawings.getD i2 0)).size.height / 2⟩)
    (fun st2 hst2 i2 hi2 => ?_) (drawings.getD i 0) i hi rfl
    (fun i2 h1 h2 => getD_ne_of_nodup drawings hno i2 i h2 hi (by omega))
  dsimp only
  rw [← eqExceptPos_size (hst2 (drawings.getD i2 0))]

/-- Box center of element `i` after the circular placement loop: the
half-size offset cancels, leaving the center exactly on the circle at
angle `2 pi i / n`. -/
theorem circPlace_boxCenter (piV : α) (cosF sinF : α → α) (cX cY r : α)
    (drawings : List Nat) (s : Store α) (hno : drawings.Nodup)
    (i : ℕ) (hi : i < drawings.length) :
    boxCenter ((circPlace piV cosF sinF cX cY r drawings s) (drawings.getD i 0)) =
      ⟨cX + r * cosF ((2 * piV * (i : α)) / (drawings.length : α)),
       cY + r * sinF ((2 * piV * (i : α)) / (drawings.length : α))⟩ := by
  have hpos := circPlace_pos piV cosF sinF cX cY r drawings s hno i hi
  have hsz := eqExceptPos_size
    ((circPlace_frame piV cosF sinF cX cY r drawings s).1 (drawings.getD i 0))
  unfold boxCenter
  rw [hpos, ← hsz]
  dsimp only
  refine congrArg₂ Position.mk ?_ ?_ <;> ring

end CircLemmas

/-- Distance between two points of the circle of radius `r` at angles `a`
and `b`: the chord length `2 r sin((b - a) / 2)` (for nonnegative radius
and nonnegative half-angle sine). -/
theorem centerDist_circle (cX cY r a b : ℝ) (hr : 0 ≤ r)
    (hs : 0 ≤ Real.sin ((b - a) / 2)) :
    centerDist ⟨cX + r * Real.cos a, cY + r * Real.sin a⟩
      ⟨cX + r * Real.cos b, cY + r * Real.sin b⟩ =
      2 * r * Real.sin ((b - a) / 2) := by
  unfold centerDist
  dsimp only
  have hpa := Real.sin_sq_add_cos_sq a
  have hpb := Real.sin_sq_add_cos_sq b
  have hba : Real.cos (b - a) = Real.cos a * Real.cos b + Real.sin a * Real.sin b := by
    rw [Real.cos_sub]
    ring
  have hsq := Real.sin_sq_eq_half_sub ((b - a) / 2)
  rw [show (2 : ℝ) * ((b - a) / 2) = b - a by ring] at hsq
  have key : (cX + r * Real.cos a - (cX + r * Real.cos b)) ^ 2 +
      (cY + r * Real.sin a - (cY + r * Real.sin b)) ^ 2 =
      (2 * r * Real.sin ((b - a) / 2)) ^ 2 := by
    linear_combination r ^ 2 * hpa + r ^ 2 * hpb + 2 * r ^ 2 * hba -
      4 * r ^ 2 * hsq
  rw [key, Real.sqrt_sq (mul_nonneg (mul_nonneg (by norm_num) hr) hs)]

/-- Claim C8 (amended to consecutive pairs): under the Circular strategy
with a duplicate-free Drawing subset and nonnegative radius
`min(availableWidth, availableHeight)/2 - 100`, the box center of element
`i` of `n` lies exactly at angle `2 pi i / n` on the circle of that
radius centered at the canvas center (for boxes of any sizes, equal or
not), and the distance between the box centers of CONSECUTIVE elements
`i` and `i + 1` is `2 * radius * sin(pi / n)`.  The unconditional
"pairwise" reading is refuted by the counterexample: for non-adjacent
pairs the distance is `2 * radius * sin(pi * (j - i) / n)`, not
`2 * radius * sin(pi / n)`. -/
theorem claim_C8 (canvas : CanvasSize ℝ) (cfg : LayoutConfig ℝ) (s : Store ℝ)
    (elements : List (Option Nat))
    (hstrat : cfg.strategy = LayoutStrategy.Circular)
    (hno : (getDrawingElements s elements).Nodup)
    (hr : 0 ≤ circRadius canvas cfg) :
    ∀ i, i < (getDrawingElements s elements).length →
      (boxCenter ((arrangeElementsR canvas cfg s elements).1
          ((getDrawingElements s elements).getD i 0)) =
        ⟨canvas.width / 2 + circRadius canvas cfg *
            Real.cos (2 * Real.pi * (i : ℝ) /
              ((getDrawingElements s elements).length : ℝ)),
         canvas.height / 2 + circRadius canvas cfg *
            Real.sin (2 * Real.pi * (i : ℝ) /
              ((getDrawingElements s elements).length : ℝ))⟩) ∧
      (i + 1 < (getDrawingElements s elements).length →
        centerDist
          (boxCenter ((arrangeElementsR canvas cfg s elements).1
            ((getDrawingElements s elements).getD i 0)))
          (boxCenter ((arrangeElementsR canvas cfg s elements).1
            ((getDrawingElements s elements).getD (i + 1) 0))) =
          2 * circRadius canvas cfg *
            Real.sin (Real.pi / ((getDrawingElements s elements).length : ℝ))) := by
  intro i hi
  have hne : getDrawingElements s elements ≠ [] := by
    intro hc
    rw [hc] at hi
    exact Nat.not_lt_zero i hi
  unfold arrangeElementsR arrangeElements
  rw [hstrat]
  unfold arrangeCircular
  rw [if_neg hne]
  dsimp only
  rw [show (min (canvas.width - cfg.marginLeft - cfg.marginRight)
      (canvas.height - cfg.marginTop - cfg.marginBottom) / 2 - 100 : ℝ) =
      circRadius canvas cfg from rfl]
  constructor
  · exact circPlace_boxCenter Real.pi Real.cos Real.sin
      (canvas.width / 2) (canvas.height / 2) (circRadius canvas cfg)
      (getDrawingElements s elements) s hno i hi
  · intro hi1
    rw [circPlace_boxCenter Real.pi Real.cos Real.sin
        (canvas.width / 2) (canvas.height / 2) (circRadius canvas cfg)
        (getDrawingElements s elements) s hno i hi,
      circPlace_boxCenter Real.pi Real.cos Real.sin
        (canvas.width / 2) (canvas.height / 2) (circRadius canvas cfg)
        (getDrawingElements s elements) s hno (i + 1) hi1]
    have hlen1 : (1 : ℝ) ≤ ((getDrawingElements s elements).length : ℝ) := by
      have h1 : 1 ≤ (getDrawingElements s elements).length := by omega
      exact_mod_cast h1
    have hhalf : ((2 * Real.pi * ((i + 1 : ℕ) : ℝ)) /
        ((getDrawingElements s elements).length : ℝ) -
        (2 * Real.pi * (i : ℝ)) /
        ((getDrawingElements s elements).length : ℝ)) / 2 =
        Real.pi / ((getDrawingElements s elements).length : ℝ) := by
      push_cast
      ring
    have hsin : 0 ≤ Real.sin
        (Real.pi / ((getDrawingElements s elements).length : ℝ)) := by
      refine Real.sin_nonneg_of_nonneg_of_le_pi
        (div_nonneg Real.pi_nonneg (Nat.cast_nonneg _)) ?_
      exact div_le_self Real.pi_nonneg hlen1
    rw [centerDist_circle (canvas.width / 2) (canvas.height / 2)
      (circRadius canvas cfg) _ _ hr (hhalf ▸ hsin), hhalf]

/-- Counterexample to the "pairwise" reading of C8: four equal 50x50
boxes on a 1000x1000 canvas with zero margins sit on a circle of radius
400; the opposite pair (elements 0 and 2) has center distance 800, while
the claimed value 2 * 400 * sin(pi/4) is 400 * sqrt 2, which is not
800. -/
theorem claim_C8_cex :
    getDrawingElements circStoreR circElems4 = [0, 1, 2, 3] ∧
    (∀ d ∈ getDrawingElements circStoreR circElems4,
      (circStoreR d).size = ⟨50, 50⟩) ∧
    centerDist
      (boxCenter ((arrangeCircularR ⟨1000, 1000⟩ circCfgR circStoreR circElems4).1 0))
      (boxCenter ((arrangeCircularR ⟨1000, 1000⟩ circCfgR circStoreR circElems4).1 2)) = 800 ∧
    2 * circRadius ⟨1000, 1000⟩ circCfgR * Real.sin (Real.pi / 4) ≠ 800 := by
  have hgd : getDrawingElements circStoreR circElems4 = [0, 1, 2, 3] := rfl
  have hno : ([0, 1, 2, 3] : List Nat).Nodup := by decide
  have hRR : circRadius (⟨1000, 1000⟩ : CanvasSize ℝ) circCfgR = 400 := by
    unfold circRadius circCfgR
    norm_num
  have hcb : ∀ i : ℕ, i < 4 →
      boxCenter ((arrangeCircularR ⟨1000, 1000⟩ circCfgR circStoreR circElems4).1
        (([0, 1, 2, 3] : List Nat).getD i 0)) =
      ⟨1000 / 2 + 400 * Real.cos (2 * Real.pi * (i : ℝ) / 4),
       1000 / 2 + 400 * Real.sin (2 * Real.pi * (i : ℝ) / 4)⟩ := by
    intro i hi
    unfold arrangeCircularR arrangeCircular
    rw [hgd, if_neg (List.cons_ne_nil 0 [1, 2, 3])]
    dsimp only
    rw [circPlace_boxCenter Real.pi Real.cos Real.sin _ _ _
      ([0, 1, 2, 3] : List Nat) circStoreR hno i hi]
    simp only [Position.mk.injEq]
    constructor <;> norm_num [circCfgR, min_self, List.length_cons,
      List.length_nil]
  have h0b : boxCenter
      ((arrangeCircularR ⟨1000, 1000⟩ circCfgR circStoreR circElems4).1 0) =
      (⟨900, 500⟩ : Position ℝ) := by
    have h0 := hcb 0 (by omega)
    rw [show (2 * Real.pi * ((0 : ℕ) : ℝ) / 4 : ℝ) = 0 by norm_num] at h0
    rw [Real.cos_zero, Real.sin_zero] at h0
    refine Eq.trans h0 ?_
    norm_num [Position.mk.injEq]
  have h2b : boxCenter
      ((arrangeCircularR ⟨1000, 1000⟩ circCfgR circStoreR circElems4).1 2) =
      (⟨100, 500⟩ : Position ℝ) := by
    have h2 := hcb 2 (by omega)
    rw [show (2 * Real.pi * ((2 : ℕ) : ℝ) / 4 : ℝ) = Real.pi by push_cast; ring] at h2
    rw [Real.cos_pi, Real.sin_pi] at h2
    refine Eq.trans h2 ?_
    norm_num [Position.mk.injEq]
  refine ⟨hgd, fun d _ => rfl, ?_, ?_⟩
  · rw [h0b, h2b]
    unfold centerDist
    dsimp only
    rw [show ((900 : ℝ) - 100) ^ 2 + ((500 : ℝ) - 500) ^ 2 = 800 ^ 2 by norm_num]
    exact Real.sqrt_sq (by norm_num)
  · rw [hRR, Real.sin_pi_div_four]
    intro hc
    have h2 : Real.sqrt 2 = 2 := by linarith
    have h4 := Real.sq_sqrt (by norm_num : (0 : ℝ) ≤ 2)
    rw [h2] at h4
    norm_num at h4

/-- Witness for C8: the four 50x50 boxes on the 1000x1000 canvas satisfy
the amended claim's hypotheses, element 0's box center is on the circle
at angle 0, and the consecutive pair (0, 1) is at distance
`2 * radius * sin(pi / 4)`. -/
theorem claim_C8_witness :
    circCfgR.strategy = LayoutStrategy.Circular ∧
    (getDrawingElements circStoreR circElems4).Nodup ∧
    0 ≤ circRadius (⟨1000, 1000⟩ : CanvasSize ℝ) circCfgR ∧
    boxCenter ((arrangeElementsR ⟨1000, 1000⟩ circCfgR circStoreR circElems4).1
        ((getDrawingElements circStoreR circElems4).getD 0 0)) =
      ⟨1000 / 2 + circRadius (⟨1000, 1000⟩ : CanvasSize ℝ) circCfgR *
          Real.cos (2 * Real.pi * ((0 : ℕ) : ℝ) /
            ((getDrawingElements circStoreR circElems4).length : ℝ)),
       1000 / 2 + circRadius (⟨1000, 1000⟩ : CanvasSize ℝ) circCfgR *
          Real.sin (2 * Real.pi * ((0 : ℕ) : ℝ) /
            ((getDrawingElements circStoreR circElems4).length : ℝ))⟩ ∧
    centerDist
      (boxCenter ((arrangeElementsR ⟨1000, 1000⟩ circCfgR circStoreR circElems4).1
        ((getDrawingElements circStoreR circElems4).getD 0 0)))
      (boxCenter ((arrangeElementsR ⟨1000, 1000⟩ circCfgR circStoreR circElems4).1
        ((getDrawingElements circStoreR circElems4).getD 1 0))) =
      2 * circRadius (⟨1000, 1000⟩ : CanvasSize ℝ) circCfgR *
        Real.sin (Real.pi / ((getDrawingElements circStoreR circElems4).length : ℝ)) := by
  have hno : (getDrawingElements circStoreR circElems4).Nodup := by decide
  have hr : (0 : ℝ) ≤ circRadius (⟨1000, 1000⟩ : CanvasSize ℝ) circCfgR := by
    unfold circRadius circCfgR
    norm_num
  have hC := claim_C8 ⟨1000, 1000⟩ circCfgR circStoreR circElems4 rfl hno hr
  have hlen : (getDrawingElements circStoreR circElems4).length = 4 := by decide
  exact ⟨rfl, hno, hr, (hC 0 (by rw [hlen]; omega)).1,
    (hC 0 (by rw [hlen]; omega)).2 (by rw [hlen]; omega)⟩

end UFMTooling
